import Mathlib

/-!
# vtsoffscreen: offscreen snapshot service

A shallow embedding of `src/vtsoffscreen/snapper.hpp` and
`src/vtsoffscreen/snapper.cpp`.

* Part 1 embeds the data model (`View`, `Snapshot`, `Request`, ...) and the
  per-request capture protocol `Snapper::Detail::snap`.
* Part 2 embeds the worker pool `AsyncSnapper` as a labelled transition
  system: the constructor, the workers, the callers of `operator()` and the
  caller of `stop()` each take their steps, in any order.
* Part 3 states and proves the properties.

Conventions.  A C++ `double` is a value of `Double` (only the distinction
NaN / not NaN is ever inspected by the code).  A call that may throw or loop
forever yields an `Outcome`; loops without a bound in the source take a fuel
argument and yield `Outcome.diverges` when it runs out.  The collaborators
that are not part of the repository (the map engine, the renderer, OpenGL,
the optics helpers) are the fields of `Engine`: every theorem quantifies over
all of them.
-/

namespace VtsOffscreen

/-! ## Part 1a: values -/

/-- A C++ `double`: not-a-number, an infinity, or a finite value. -/
inductive Double where
  | nan
  | inf (negative : Bool)
  | finite (value : ℚ)
deriving DecidableEq

/-- The test `std::isnan`. -/
def Double.isnan : Double → Bool
  | .nan => true
  | _ => false

/-- The type `math::Point2`. -/
structure Point2 where
  x : Double
  y : Double
deriving DecidableEq

/-- The type `math::Point3`; `world(0)`, `world(1)`, `world(2)` are `x`, `y`, `z`. -/
structure Point3 where
  x : Double
  y : Double
  z : Double
deriving DecidableEq

/-- The type `math::Point4`. -/
structure Point4 where
  x : Double
  y : Double
  z : Double
  w : Double
deriving DecidableEq

/-- The type `math::Size2`: a width and a height, counted as natural numbers. -/
structure Size2 where
  width : Nat
  height : Nat
deriving DecidableEq

/-- The enumeration `vts::Srs` of the engine's reference frames. -/
inductive Srs where
  | Physical
  | Navigation
  | Public
  | Search
  | Custom1
  | Custom2
deriving DecidableEq

/-- The type `optics::Camera::Parameters` (intrinsics), opaque to this code. -/
structure CameraParameters where
  data : List Double
deriving DecidableEq

/-- The type `optics::Camera::Position` (extrinsics), opaque to this code. -/
structure CameraPosition where
  data : List Double
deriving DecidableEq

/-- The type `optics::Camera::Viewport`. -/
structure Viewport where
  x : Int
  y : Int
  width : Nat
  height : Nat
deriving DecidableEq

/-- The accessor `Viewport::size()`. -/
def Viewport.size (v : Viewport) : Size2 :=
  { width := v.width, height := v.height }

/-- The struct `View` of `snapper.hpp`. -/
structure View where
  camera : CameraParameters
  position : CameraPosition
  viewport : Viewport
  keypoints : List Point2
deriving DecidableEq

/-- The struct `Point` of `snapper.hpp`: an image point with its world point. -/
structure Point where
  image : Point2
  world : Point3
deriving DecidableEq

/-- The pixel type `cv::Vec3b`: three unsigned bytes. -/
structure Vec3b where
  c0 : Fin 256
  c1 : Fin 256
  c2 : Fin 256
deriving DecidableEq

/-- The type `Image = cv::Mat_<cv::Vec3b>`: `rows`, `cols` and the row-major pixel data. -/
structure Image where
  rows : Nat
  cols : Nat
  data : List (List Vec3b)
deriving DecidableEq

/-- The constructor `cv::Mat_(rows, cols, value)`: every pixel is `value`. -/
def Image.filled (rows cols : Nat) (value : Vec3b) : Image :=
  { rows := rows, cols := cols, data := List.replicate rows (List.replicate cols value) }

/-- The struct `Snapshot` of `snapper.hpp`. -/
structure Snapshot where
  image : Image
  keypoints : List Point
deriving DecidableEq

/-- The constructor `Snapshot::Snapshot(const math::Size2 &size)`:
`image(size.height, size.width, cv::Vec3b(0, 0, 255))`, no keypoints. -/
def Snapshot.ctor (size : Size2) : Snapshot :=
  { image := Image.filled size.height size.width ⟨0, 0, 255⟩, keypoints := [] }

/-- The exceptions that travel through the code. -/
inductive Exn where
  | glProcAddress
  | cannotCreateFence
  | invalidArgument
  | promiseAlreadySatisfied
  | noState
  | resourceUnavailable
  | missingExtension
  | egl (code : Nat)
  | engine (code : Nat)
deriving DecidableEq

/-! ## Part 1b: outcomes of stateful, fallible, possibly unbounded code -/

/-- The result of running a piece of code from a state: it returns a value,
it throws (the state reached so far stays), or it never finishes. -/
inductive Outcome (σ α : Type) where
  | returns (value : α) (state : σ)
  | throws (e : Exn) (state : σ)
  | diverges

/-- A computation over the state `σ`. -/
def Exec (σ α : Type) : Type := σ → Outcome σ α

/-- Sequencing: an exception or a divergence of the first part ends the whole. -/
def Exec.bind {σ α β : Type} (m : Exec σ α) (f : α → Exec σ β) : Exec σ β :=
  fun s =>
    match m s with
    | .returns a s1 => f a s1
    | .throws e s1 => .throws e s1
    | .diverges => .diverges

instance (σ : Type) : Monad (Exec σ) where
  pure a := fun s => .returns a s
  bind := Exec.bind

/-- The statement `throw e`. -/
def Exec.raise {σ α : Type} (e : Exn) : Exec σ α := fun s => .throws e s

/-- A loop that ran out of fuel. -/
def Exec.hang {σ α : Type} : Exec σ α := fun _ => .diverges

/-- Read the current state. -/
def Exec.get {σ : Type} : Exec σ σ := fun s => .returns s s

/-- Apply a state update that cannot fail. -/
def Exec.modify {σ : Type} (f : σ → σ) : Exec σ Unit := fun s => .returns () (f s)

/-- Call a collaborator that leaves a state and may raise. -/
def Exec.call {σ : Type} (op : σ → Option Exn × σ) : Exec σ Unit :=
  fun s =>
    match op s with
    | (none, s1) => .returns () s1
    | (some e, s1) => .throws e s1

/-! ## Part 1c: the rendering session `Snapper::Detail` -/

/-- The closures the code stores in `vts::MapCallbacks`, with what they captured.
`external` stands for a hook some collaborator installed. -/
inductive Callback where
  /-- The hook `[=]() mutable { mcReady_ = true; }` (line 208). -/
  | mapconfigReady
  /-- The hook `[&position](double *mat)` (line 296). -/
  | overrideView (position : CameraPosition)
  /-- The hook `[&near, &far](double&, double&, double &n, double &f)` (line 300). -/
  | captureNearFar
  /-- The hook `[&view, near, far](double *mat)` (line 307): `near` and `far` are
  captured by value. -/
  | overrideProj (view : View) (near : Double) (far : Double)
  | external (id : Nat)
deriving DecidableEq

/-- The hook set `vts::MapCallbacks`: the slots the code assigns, and the rest. -/
structure MapCallbacks where
  mapconfigReady : Option Callback
  cameraOverrideView : Option Callback
  cameraOverrideFovAspectNearFar : Option Callback
  cameraOverrideProj : Option Callback
  others : List Callback
deriving DecidableEq

/-- The fields of `vts::renderer::RenderOptions` that `snap` assigns. -/
structure RenderOptions where
  width : Nat
  height : Nat
  renderAtmosphere : Bool
  colorToTargetFrameBuffer : Bool
deriving DecidableEq

/-- The state of `Snapper::Detail`: what the code reads and writes of `map_` and
`renderer_`, the flag `mcReady_`, and the collaborators' own state `ext`
(graphics context, engine, GL). -/
structure Detail (ε : Type) where
  callbacks : MapCallbacks
  windowSize : Size2
  options : RenderOptions
  mcReady : Bool
  ext : ε

/-- The collaborators of `Snapper::Detail`, none of them part of the repository. -/
structure Engine (ε : Type) where
  /-- The division of two doubles. -/
  fdiv : Double → Double → Double
  /-- The method `vts::Map::convert(in, out, from, to)`. -/
  convert : ε → Point3 → Srs → Srs → Point3
  /-- The method `optics::Camera::Position::transform`. -/
  transform : (Point4 → Point4) → CameraPosition → CameraPosition
  /-- The builder `optics::CameraGLAdaptor::glViewMatrix`. -/
  glViewMatrix : CameraPosition → List Double
  /-- The builder `optics::CameraGLAdaptor::glProjectionMatrix(camera, near, far, mat)`. -/
  glProjectionMatrix : CameraParameters → Double → Double → List Double
  dataTick : Detail ε → Option Exn × Detail ε
  renderTickPrepare : Detail ε → Option Exn × Detail ε
  renderTickRender : Detail ε → Option Exn × Detail ε
  getMapRenderComplete : Detail ε → Bool
  /-- The call `renderer_.render(&map_)`. -/
  render : Detail ε → Option Exn × Detail ε
  /-- The call `glFenceSync`: `none` is the null fence. -/
  glFenceSync : ε → Option Nat × ε
  /-- The call `glClientWaitSync`: `true` is `GL_TIMEOUT_EXPIRED`. -/
  glClientWaitSync : ε → Nat → Bool × ε
  glDeleteSync : ε → Nat → ε
  glFinish : ε → ε
  /-- The calls `glBindFramebuffer` and `glPixelStorei` before the readback. -/
  glBindReadTarget : Detail ε → Option Exn × Detail ε
  /-- The call `glReadPixels(x, y, width, height, GL_BGR, ...)`: the pixel written
  at a row and column of the buffer, `none` where nothing is written. -/
  glReadPixels : ε → (x y width height : Nat) → (row col : Nat) → Option Vec3b
  /-- The call `renderer_.getWorldPosition(screen, world)`. -/
  getWorldPosition : ε → Point2 → Point3

/-- The method `Snapper::Detail::prod1`. -/
def Detail.prod1 {ε : Type} (eng : Engine ε) (d : Detail ε) (p : Point4) : Point4 :=
  let q : Point3 := { x := eng.fdiv p.x p.w, y := eng.fdiv p.y p.w, z := eng.fdiv p.z p.w }
  let out := eng.convert d.ext q Srs.Custom1 Srs.Physical
  { x := out.x, y := out.y, z := out.z, w := Double.finite 1 }

/-- The function `prod(snapper, p)`. -/
def prod {ε : Type} (eng : Engine ε) (d : Detail ε) (p : Point4) : Point4 :=
  d.prod1 eng p

/-- The scope of a `MapCallbackHolder mch(map_)` (lines 270-277): the constructor
copies `map.callbacks()`, the destructor assigns the copy back, on return and
while an exception unwinds. -/
def MapCallbackHolder.scope {ε α : Type} (body : Exec (Detail ε) α) : Exec (Detail ε) α :=
  fun d =>
    let mc := d.callbacks
    match body d with
    | .returns a d1 => .returns a { d1 with callbacks := mc }
    | .throws e d1 => .throws e { d1 with callbacks := mc }
    | .diverges => .diverges

/-- The three assignments of lines 294-310 to `map_.callbacks()`; `near` and `far`
are the values of the locals at the moment the projection closure is built. -/
def installHooks (view : View) (position : CameraPosition) (near far : Double)
    (mc : MapCallbacks) : MapCallbacks :=
  { mc with
    cameraOverrideView := some (.overrideView position)
    cameraOverrideFovAspectNearFar := some .captureNearFar
    cameraOverrideProj := some (.overrideProj view near far) }

/-- The locals `near` and `far` of `snap`. -/
structure ClipPlanes where
  near : Double
  far : Double
deriving DecidableEq

/-- What a call of the clip-plane hook with the engine's `n` and `f` does to the
locals `near` and `far`: the closure of line 300 stores `n` and `f`. -/
def Callback.invokeNearFar (cb : Callback) (cell : ClipPlanes) (n f : Double) : ClipPlanes :=
  match cb with
  | .captureNearFar => { near := n, far := f }
  | _ => cell

/-- What a call of the view hook writes to `mat`: the closure of line 296. -/
def Callback.invokeView {ε : Type} (eng : Engine ε) (cb : Callback) : Option (List Double) :=
  match cb with
  | .overrideView position => some (eng.glViewMatrix position)
  | _ => none

/-- What a call of the projection hook writes to `mat`: the closure of line 307 calls
`glProjectionMatrix(view.camera, 10.0, 100000.0, mat)`. -/
def Callback.invokeProj {ε : Type} (eng : Engine ε) (cb : Callback) : Option (List Double) :=
  match cb with
  | .overrideProj view _ _ =>
      some (eng.glProjectionMatrix view.camera (Double.finite 10) (Double.finite 100000))
  | _ => none

/-- The loop of lines 315-320 (a do-while): tick three times, then test
`getMapRenderComplete`. -/
def tickLoop {ε : Type} (eng : Engine ε) : Nat → Exec (Detail ε) Unit
  | 0 => Exec.hang
  | fuel + 1 => do
      Exec.call eng.dataTick
      Exec.call eng.renderTickPrepare
      Exec.call eng.renderTickRender
      let d ← Exec.get
      if eng.getMapRenderComplete d then pure () else tickLoop eng fuel

/-- The loop of lines 93-97 of `waitForGl`. -/
def waitFence {ε : Type} (eng : Engine ε) (fence : Nat) : Nat → Exec (Detail ε) Unit
  | 0 => Exec.hang
  | fuel + 1 => fun d =>
      match eng.glClientWaitSync d.ext fence with
      | (true, e1) => waitFence eng fence fuel { d with ext := e1 }
      | (false, e1) => .returns () { d with ext := e1 }

/-- The function `waitForGl` (lines 86-103). -/
def waitForGl {ε : Type} (eng : Engine ε) (fuel : Nat) : Exec (Detail ε) Unit :=
  fun d =>
    match eng.glFenceSync d.ext with
    | (none, e1) => .throws Exn.cannotCreateFence { d with ext := e1 }
    | (some fence, e1) =>
        (do
          waitFence eng fence fuel
          Exec.modify (fun d => { d with ext := eng.glDeleteSync d.ext fence })
          Exec.modify (fun d => { d with ext := eng.glFinish d.ext })
          Exec.modify (fun d => { d with ext := eng.glFinish d.ext })) { d with ext := e1 }

/-- The effect of `glReadPixels` on the buffer `image.data`: a pixel the call writes
is replaced, any other keeps its value. -/
def Image.readInto (px : Nat → Nat → Option Vec3b) (img : Image) : Image :=
  { img with
    data := img.data.mapIdx (fun r row => row.mapIdx (fun c old => (px r c).getD old)) }

/-- The call `cv::flip(image, image, false)`: flip around the horizontal axis. -/
def Image.flip (img : Image) : Image :=
  { img with data := img.data.reverse }

/-- The loop of lines 344-360 over `view.keypoints`. -/
def sampleKeypoints {ε : Type} (eng : Engine ε) (e : ε) : List Point2 → Snapshot → Snapshot
  | [], snapshot => snapshot
  | keypoint :: rest, snapshot =>
      let world := eng.getWorldPosition e keypoint
      if world.x.isnan || world.y.isnan || world.z.isnan then
        sampleKeypoints eng e rest snapshot
      else
        let world := eng.convert e world Srs.Physical Srs.Custom1
        sampleKeypoints eng e rest
          { snapshot with keypoints := snapshot.keypoints ++ [{ image := keypoint, world := world }] }

/-- Lines 313-362 of `snap`: wait for the render to be complete, render, read the
image back, sample the keypoints. -/
def Detail.snapTail {ε : Type} (eng : Engine ε) (fuel : Nat) (view : View) :
    Exec (Detail ε) Snapshot := do
  let screenSize := view.viewport.size
  tickLoop eng fuel
  Exec.modify (fun d => { d with options :=
    { width := screenSize.width, height := screenSize.height
      renderAtmosphere := false, colorToTargetFrameBuffer := false } })
  Exec.call eng.render
  waitForGl eng fuel
  let snapshot := Snapshot.ctor screenSize
  Exec.call eng.glBindReadTarget
  let d ← Exec.get
  let image :=
    (snapshot.image.readInto
      (eng.glReadPixels d.ext 0 0 screenSize.width screenSize.height)).flip
  pure (sampleKeypoints eng d.ext view.keypoints { snapshot with image := image })

/-- The part of `snap` inside the scope of the `MapCallbackHolder` (lines 291-362):
the locals `near(0)` and `far(0)`, the three hooks, then the rest. The locals are
written by the clip-plane hook only and read by nobody after the projection closure
has copied them, so their later values are not part of the state. -/
def Detail.snapBody {ε : Type} (eng : Engine ε) (fuel : Nat) (view : View)
    (position : CameraPosition) : Exec (Detail ε) Snapshot := do
  let near := Double.finite 0
  let far := Double.finite 0
  Exec.modify (fun d => { d with callbacks := installHooks view position near far d.callbacks })
  Detail.snapTail eng fuel view

/-- The method `Snapper::Detail::snap` (lines 281-363). -/
def Detail.snap {ε : Type} (eng : Engine ε) (fuel : Nat) (view : View) :
    Exec (Detail ε) Snapshot := do
  let screenSize := view.viewport.size
  Exec.modify (fun d => { d with windowSize := { width := screenSize.width, height := screenSize.height } })
  let d ← Exec.get
  let position := eng.transform (prod eng d) view.position
  MapCallbackHolder.scope (Detail.snapBody eng fuel view position)

/-! ## Part 2: the worker pool `AsyncSnapper` -/

/-- The struct `Config` of `snapper.hpp`; an SRS definition is kept as its string form. -/
structure Config where
  mapConfigUrl : String
  authUrl : String
  customSrs1 : String
  customSrs2 : String
deriving DecidableEq

/-- The handle `glsupport::egl::Device`; the default-constructed device is empty. -/
structure Device where
  handle : Option Nat
deriving DecidableEq

/-- The default-constructed `glsupport::egl::Device()`. -/
def Device.default : Device := { handle := none }

/-- What the shared state of a satisfied `std::promise<Snapshot>` holds. -/
inductive Resolution where
  | value (snapshot : Snapshot)
  | exception (e : Exn)
deriving DecidableEq

/-- A `std::promise<Snapshot>`: the address of its shared state, which is also what
the `std::future` of line 431 reads. The shared states live in `System.shared`. -/
structure Promise where
  shared : Nat
deriving DecidableEq

/-- The member `std::promise::set_value`: stores the value in the shared state, and
raises when the shared state is already satisfied or does not exist. -/
def Promise.set_value (p : Promise) (snapshot : Snapshot) (shared : List (Option Resolution)) :
    Except Exn (List (Option Resolution)) :=
  match shared[p.shared]? with
  | some none => .ok (shared.set p.shared (some (Resolution.value snapshot)))
  | some (some _) => .error Exn.promiseAlreadySatisfied
  | none => .error Exn.noState

/-- The member `std::promise::set_exception`: stores the exception in the shared
state, and raises when the shared state is already satisfied or does not exist. -/
def Promise.set_exception (p : Promise) (e : Exn) (shared : List (Option Resolution)) :
    Except Exn (List (Option Resolution)) :=
  match shared[p.shared]? with
  | some none => .ok (shared.set p.shared (some (Resolution.exception e)))
  | some (some _) => .error Exn.promiseAlreadySatisfied
  | none => .error Exn.noState

/-- The struct `AsyncSnapper::Request`. -/
structure Request where
  view : View
  promise : Promise
deriving DecidableEq

/-- The constructor `Request(const View &view)`: the promise is default-constructed,
with a new, unsatisfied shared state at `address`. -/
def Request.ctor (view : View) (address : Nat) : Request :=
  { view := view, promise := { shared := address } }

/-- How a call `snapper.snap(request.view)` that finishes ends. -/
inductive SnapResult where
  | returned (snapshot : Snapshot)
  | threw (e : Exn)
deriving DecidableEq

/-- What the promise of a request is to be satisfied with, given how `snap` ended. -/
def SnapResult.resolution : SnapResult → Resolution
  | .returned snapshot => Resolution.value snapshot
  | .threw e => Resolution.exception e

/-- The program points of `AsyncSnapper::worker` (lines 437-469). -/
inductive Phase where
  /-- Inside `Snapper snapper(config, device)` (line 445). -/
  | boot
  /-- About to evaluate `while (running_)` (line 447). -/
  | loopHead
  /-- Inside the loop body, about to lock and inspect the queue (lines 449-451). -/
  | critical
  /-- Saw an empty queue and `running_` true, about to call `wait` (line 453). -/
  | preWait
  /-- Blocked in `requestsCond_.wait(lock)`. -/
  | waiting
  /-- Holds the dequeued `request`, inside `snapper.snap` (line 464). -/
  | serving (request : Request)
  /-- The function `worker` has returned. -/
  | exited
deriving DecidableEq

/-- An element of `threads_`: a `std::thread` running
`worker(threadId, config, device)`. -/
structure Thread where
  threadId : Int
  config : Config
  device : Device
  phase : Phase
  joinable : Bool
deriving DecidableEq

/-- The fields of `AsyncSnapper`. -/
structure AsyncSnapper where
  threads : List Thread
  running : Bool
  requests : List Request
deriving DecidableEq

/-- What a step of the pool does to the outside. -/
inductive Obs where
  /-- A caller put the request at the back of the queue. -/
  | enqueued (request : Request)
  /-- A worker took the request from the front of the queue. -/
  | dequeued (worker : Nat) (request : Request)
  /-- A call of `set_value` or `set_exception` on the promise of the request succeeded. -/
  | resolved (worker : Nat) (request : Request)
deriving DecidableEq

/-- The program points of the constructor `AsyncSnapper::AsyncSnapper` (lines 380-411). -/
inductive Ctor where
  /-- In the try block or in the handler of `MissingExtension`, with `devices` still to
  be given a worker, the next one with the id `threadId` (lines 394-397, 402-404); with
  no device left, about to run lines 407-408. -/
  | spawning (config : Config) (threadId : Int) (devices : List Device)
  /-- An exception left the try block: the destructor of the guard runs `stop()`. -/
  | unwinding (e : Exn)
  /-- The constructor has returned. -/
  | done
  /-- The exception has left the constructor. -/
  | failed (e : Exn)
deriving DecidableEq

/-- The program points of the caller of `AsyncSnapper::stop` (lines 413-420). -/
inductive Stop where
  /-- Nobody has called `stop()`. -/
  | idle
  /-- In the loop of lines 417-419, about to call `join` on `threads_[k]`. -/
  | joining (k : Nat)
  /-- The call has returned. -/
  | returned
  /-- The call was left by an exception. -/
  | failed (e : Exn)
deriving DecidableEq

/-- The process that owns the pool: the object, where its constructor and the caller of
`stop()` stand, the shared states of the promises by address (`none` while
unsatisfied), whether `std::terminate` ran (an exception left a thread function), and
what happened so far. -/
structure System where
  pool : AsyncSnapper
  ctor : Ctor
  stop : Stop
  shared : List (Option Resolution)
  aborted : Bool
  log : List Obs
deriving DecidableEq

/-- The call `requestsCond_.notify_all()`: every thread blocked in `wait` leaves it
and, through `continue`, is back at the loop condition. -/
def AsyncSnapper.notify_all (self : AsyncSnapper) : AsyncSnapper :=
  { self with threads := self.threads.map (fun t =>
      match t.phase with
      | .waiting => { t with phase := Phase.loopHead }
      | _ => t) }

/-- Replace the phase of worker `i`. -/
def AsyncSnapper.setPhase (self : AsyncSnapper) (i : Nat) (phase : Phase) : AsyncSnapper :=
  { self with threads := self.threads.modify (fun t => { t with phase := phase }) i }

/-- The phase of worker `i`. -/
def AsyncSnapper.phase? (self : AsyncSnapper) (i : Nat) : Option Phase :=
  (self.threads[i]?).map (fun t => t.phase)

/-- The effect of a `join` that returns on `threads_[i]`: it is no longer joinable. -/
def AsyncSnapper.markJoined (self : AsyncSnapper) (i : Nat) : AsyncSnapper :=
  { self with threads := self.threads.modify (fun t => { t with joinable := false }) i }

/-- One step of worker `i` that needs nothing from outside the pool
(lines 447-461): evaluate the loop condition; inspect the queue under the mutex
and either leave, go to wait, or take the front request; enter `wait`. -/
def AsyncSnapper.advance (self : AsyncSnapper) (i : Nat) : AsyncSnapper × List Obs :=
  match self.phase? i with
  | some .loopHead =>
      if self.running then (self.setPhase i Phase.critical, [])
      else (self.setPhase i Phase.exited, [])
  | some .critical =>
      match self.requests with
      | [] =>
          if !self.running then (self.setPhase i Phase.exited, [])
          else (self.setPhase i Phase.preWait, [])
      | request :: rest =>
          ({ self with requests := rest }.setPhase i (Phase.serving request),
            [Obs.dequeued i request])
  | some .preWait => (self.setPhase i Phase.waiting, [])
  | _ => (self, [])

/-- The try/catch of lines 463-467 once `snap` has finished: the shared states after
it, or the exception that leaves the catch block. -/
def resolve (request : Request) (result : SnapResult) (shared : List (Option Resolution)) :
    Except Exn (List (Option Resolution)) :=
  match result with
  | .returned snapshot =>
      match request.promise.set_value snapshot shared with
      | .ok shared1 => .ok shared1
      | .error e => request.promise.set_exception e shared
  | .threw e => request.promise.set_exception e shared

/-- The labels of the transition system. -/
inductive Event where
  /-- The constructor takes its next step: it starts the worker of the next device
  (lines 395-396, 402-404), or runs lines 407-408, or, once the `stop()` of its guard
  has returned, is left by the exception. -/
  | ctorStep
  /-- The `emplace_back` of lines 395-396 or 402-404 throws: the thread cannot be
  started. -/
  | threadCreationFails
  /-- A caller runs lines 429-433 of `operator()`. The model lets callers submit at any
  time, also earlier than the program can. -/
  | submit (view : View)
  /-- The constructor of line 445 returns in worker `i`. -/
  | sessionReady (i : Nat)
  /-- The constructor of line 445 throws in worker `i`. -/
  | sessionFailed (i : Nat) (e : Exn)
  /-- Worker `i` takes one step of its own. -/
  | advance (i : Nat)
  /-- The call of `snap` in worker `i` finishes. -/
  | snapDone (i : Nat) (result : SnapResult)
  /-- A thread blocked in `wait` wakes up without a notification. -/
  | spuriousWake (i : Nat)
  /-- The destructor calls `stop()` on the constructed pool, which runs lines 415-416. -/
  | stopCall
  /-- The caller of `stop()` runs `thread.join()` on its current thread (line 418). -/
  | stopJoin
deriving DecidableEq

/-- Where the loop of lines 417-419 stands before thread `k` of `n`. -/
def Stop.enter (k n : Nat) : Stop :=
  if k < n then Stop.joining k else Stop.returned

/-- Lines 415-416 of `stop()` and the entry into its loop:
`running_ = false; requestsCond_.notify_all();`. -/
def System.stopSignal (s : System) : System :=
  { s with
    pool := { s.pool with running := false }.notify_all
    stop := Stop.enter 0 s.pool.threads.length }

/-- One transition of the process. Nothing moves after `std::terminate`. A label that
does not apply where the process stands leaves it as it is; so does a `join` on a
thread whose worker has not returned yet. The mutex is not kept as a lock: the
transitions are those of the program and, around `wait`, some more. -/
def System.step (s : System) (ev : Event) : System :=
  if s.aborted then s
  else
    match ev with
    | .ctorStep =>
        match s.ctor with
        | .spawning config threadId (device :: rest) =>
            { s with
              pool := { s.pool with threads := s.pool.threads ++
                [{ threadId := threadId, config := config, device := device
                   phase := Phase.boot, joinable := true }] }
              ctor := Ctor.spawning config (threadId + 1) rest }
        | .spawning _ _ [] =>
            { s with pool := { s.pool with running := true }, ctor := Ctor.done }
        | .unwinding e =>
            match s.stop with
            | .returned => { s with ctor := Ctor.failed e }
            | .failed _ => { s with aborted := true }
            | _ => s
        | _ => s
    | .threadCreationFails =>
        match s.ctor with
        | .spawning _ _ (_ :: _) =>
            { s.stopSignal with ctor := Ctor.unwinding Exn.resourceUnavailable }
        | _ => s
    | .submit view =>
        { s with
          pool := { s.pool with
            requests := s.pool.requests ++ [Request.ctor view s.shared.length] }.notify_all
          shared := s.shared ++ [none]
          log := s.log ++ [Obs.enqueued (Request.ctor view s.shared.length)] }
    | .sessionReady i =>
        match s.pool.phase? i with
        | some .boot => { s with pool := s.pool.setPhase i Phase.loopHead }
        | _ => s
    | .sessionFailed i _ =>
        match s.pool.phase? i with
        | some .boot => { s with aborted := true }
        | _ => s
    | .advance i =>
        { s with pool := (s.pool.advance i).1, log := s.log ++ (s.pool.advance i).2 }
    | .snapDone i result =>
        match s.pool.phase? i with
        | some (.serving request) =>
            match resolve request result s.shared with
            | .ok shared1 =>
                { s with
                  pool := s.pool.setPhase i Phase.loopHead
                  shared := shared1
                  log := s.log ++ [Obs.resolved i request] }
            | .error _ => { s with aborted := true }
        | _ => s
    | .spuriousWake i =>
        match s.pool.phase? i with
        | some .waiting => { s with pool := s.pool.setPhase i Phase.loopHead }
        | _ => s
    | .stopCall =>
        match s.ctor, s.stop with
        | .done, .joining _ => s
        | .done, _ => s.stopSignal
        | _, _ => s
    | .stopJoin =>
        match s.stop with
        | .joining k =>
            match s.pool.threads[k]? with
            | none => { s with stop := Stop.returned }
            | some t =>
                if !t.joinable then { s with stop := Stop.failed Exn.invalidArgument }
                else
                  match t.phase with
                  | .exited =>
                      { s with
                        pool := s.pool.markJoined k
                        stop := Stop.enter (k + 1) s.pool.threads.length }
                  | _ => s
        | _ => s

/-- Run a schedule of events. -/
def System.run (s : System) (events : List Event) : System :=
  events.foldl System.step s

/-- The process when the constructor enters its try block, given what
`glsupport::egl::queryDevices()` does (lines 381-405): with a list of devices it is
about to spawn their workers; on `MissingExtension` the handler is about to spawn the
one worker, with id -1, on the default device; on any other exception the guard's
`stop()` is under way. -/
def System.boot (config : Config) (queryDevices : Except Exn (List Device)) : System :=
  let s : System :=
    { pool := { threads := [], running := false, requests := [] }
      ctor := Ctor.done, stop := Stop.idle, shared := [], aborted := false, log := [] }
  match queryDevices with
  | .ok devices =>
      { s with ctor := Ctor.spawning config (if devices.length = 1 then -1 else 0) devices }
  | .error .missingExtension => { s with ctor := Ctor.spawning config (-1) [Device.default] }
  | .error e => { s.stopSignal with ctor := Ctor.unwinding e }

/-- The requests enqueued so far, in order. -/
def System.submitted (s : System) : List Request :=
  s.log.filterMap (fun o => match o with
    | .enqueued r => some r
    | _ => none)

/-- The requests dequeued so far, in order. -/
def System.taken (s : System) : List Request :=
  s.log.filterMap (fun o => match o with
    | .dequeued _ r => some r
    | _ => none)

/-- How many times the promise with the shared state at `address` was satisfied. -/
def System.resolutions (s : System) (address : Nat) : Nat :=
  (s.log.filter (fun o => match o with
    | .resolved _ r => decide (r.promise.shared = address)
    | _ => false)).length

/-- The state `join` leaves a thread in: its worker has returned, it is not joinable. -/
def Thread.joined (t : Thread) : Thread :=
  { t with phase := Phase.exited, joinable := false }

/-- What happens around worker `j` while the caller of `stop()` is blocked in its
`join`: a session still being built gets built, the worker runs on, a `snap` still
running finishes as `outcome j`, the worker runs to its end, and `join` returns. -/
def joinSchedule (outcome : Nat → SnapResult) (j : Nat) : List Event :=
  [.sessionReady j, .advance j, .snapDone j (outcome j), .advance j, .stopJoin]

/-- The schedule `joinSchedule` for the `n` threads from `k` on, in order. -/
def stopSchedule (outcome : Nat → SnapResult) : Nat → Nat → List Event
  | _, 0 => []
  | k, n + 1 => joinSchedule outcome k ++ stopSchedule outcome (k + 1) n

/-- How the phase of worker `i` may change in one transition `ev` from `s`: the edges
of the control flow of `worker`. -/
def System.Moves (s : System) (ev : Event) (i : Nat) : Phase → Phase → Prop
  | .boot, .loopHead => ev = .sessionReady i
  | .loopHead, .critical => ev = .advance i ∧ s.pool.running = true
  | .loopHead, .exited => ev = .advance i ∧ s.pool.running = false
  | .critical, .exited => ev = .advance i ∧ s.pool.requests = [] ∧ s.pool.running = false
  | .critical, .preWait => ev = .advance i ∧ s.pool.requests = [] ∧ s.pool.running = true
  | .critical, .serving r => ev = .advance i ∧ ∃ rest, s.pool.requests = r :: rest
  | .preWait, .waiting => ev = .advance i
  | .waiting, .loopHead =>
      ev = .spuriousWake i ∨ (∃ view, ev = .submit view) ∨ ev = .stopCall
        ∨ ev = .threadCreationFails
  | .serving _, .loopHead => ∃ result, ev = .snapDone i result
  | _, _ => False

/-- How the record of worker `i` may change in one transition `ev` from `s`: its
identity, configuration and device stay, its phase stays or follows an edge of the
control flow, and it stops being joinable only when `stop()` joins it after it has
returned. -/
def System.ThreadMoves (s : System) (ev : Event) (i : Nat) (t u : Thread) : Prop :=
  u.threadId = t.threadId ∧ u.config = t.config ∧ u.device = t.device
    ∧ (u.phase = t.phase ∨ s.Moves ev i t.phase u.phase)
    ∧ (u.joinable = t.joinable
        ∨ (ev = .stopJoin ∧ s.stop = Stop.joining i ∧ t.phase = Phase.exited
            ∧ u.joinable = false))

/-- The workers started so far are those of the devices enumerated so far: every thread
carries `config`, and the devices of `threads_`, followed by the devices still to be
given a worker, are `devices`. -/
def System.Spawned (config : Config) (devices : List Device) (s : System) : Prop :=
  (∀ t ∈ s.pool.threads, t.config = config)
    ∧ match s.ctor with
      | .spawning cfg _ rest =>
          cfg = config ∧ s.pool.threads.map (fun t => t.device) ++ rest = devices
      | .done => s.pool.threads.map (fun t => t.device) = devices
      | _ => True

/-- The queue invariant: what was submitted is what was taken followed by what waits. -/
def System.Balanced (s : System) : Prop :=
  s.submitted = s.taken ++ s.pool.requests

/-- The promises of the requests that are queued or being served are unsatisfied, and
no two of these requests share a promise. -/
def System.Owned (s : System) : Prop :=
  (∀ r ∈ s.pool.requests, s.shared[r.promise.shared]? = some none)
    ∧ (∀ i r, s.pool.phase? i = some (Phase.serving r) →
        s.shared[r.promise.shared]? = some none)
    ∧ (s.pool.requests.map (fun r => r.promise.shared)).Nodup
    ∧ (∀ i r, s.pool.phase? i = some (Phase.serving r) →
        ∀ q ∈ s.pool.requests, q.promise.shared ≠ r.promise.shared)
    ∧ ∀ i j r q, s.pool.phase? i = some (Phase.serving r) →
        s.pool.phase? j = some (Phase.serving q) →
        r.promise.shared = q.promise.shared → i = j

/-- Every promise was satisfied once if its shared state is satisfied, and never
otherwise. -/
def System.Counted (s : System) : Prop :=
  ∀ address, s.resolutions address
    = match s.shared[address]? with
      | some (some _) => 1
      | _ => 0


/-- The worker is not inside an iteration of its loop: it builds its session, evaluates
the loop condition, or has returned. -/
def Phase.early : Phase → Bool
  | .boot => true
  | .loopHead => true
  | .exited => true
  | _ => false

/-- What the guard of the constructor and the loop of `stop()` maintain: the threads
before the one `stop()` is about to join have returned and are joined, and all of them once
`stop()` has returned; while the constructor spawns, nobody has called `stop()`, `running_`
is false and no worker is inside an iteration of its loop; `running_` stays false while
the guard runs `stop()`; and the exception leaves the constructor only after that `stop()`
has returned. -/
def System.Guarded (s : System) : Prop :=
  (∀ k : Nat, s.stop = Stop.joining k → ∀ (i : Nat) (t : Thread), i < k →
      s.pool.threads[i]? = some t → t.phase = Phase.exited ∧ t.joinable = false)
    ∧ (s.stop = Stop.returned → ∀ (i : Nat) (t : Thread),
        s.pool.threads[i]? = some t → t.phase = Phase.exited ∧ t.joinable = false)
    ∧ (∀ config threadId devices, s.ctor = Ctor.spawning config threadId devices →
        s.stop = Stop.idle ∧ s.pool.running = false
          ∧ ∀ (i : Nat) (t : Thread), s.pool.threads[i]? = some t → t.phase.early = true)
    ∧ (∀ e, s.ctor = Ctor.unwinding e → s.pool.running = false)
    ∧ (∀ e, s.ctor = Ctor.failed e → s.stop = Stop.returned ∧ s.pool.running = false)

/-- Where the exception that unwinds or has left the constructor comes from: it is the
one `queryDevices` threw, other than `MissingExtension`, or the one of a thread that
could not be started. -/
def Ctor.Blames (queryDevices : Except Exn (List Device)) : Ctor → Prop
  | .unwinding e =>
      (queryDevices = .error e ∧ e ≠ Exn.missingExtension) ∨ e = Exn.resourceUnavailable
  | .failed e =>
      (queryDevices = .error e ∧ e ≠ Exn.missingExtension) ∨ e = Exn.resourceUnavailable
  | _ => True
/-! ## Part 2b: the near/far pair as the specification words it, and sample data -/

/-- Clamp a double to the interval `[lo, hi]`. -/
def Double.clamp (lo hi : ℚ) : Double → Double
  | .finite v => .finite (max lo (min hi v))
  | .inf true => .finite lo
  | .inf false => .finite hi
  | .nan => .nan

/-- The near/far pair of the projection as the specification words it: "the captured
near/far and the extrinsic fixed bounds [10.0, 100000.0] as an additional clamp". -/
def specNearFar (captured : ClipPlanes) : Double × Double :=
  (captured.near.clamp 10 100000, captured.far.clamp 10 100000)

/-- A sample engine over a tick counter: the render is complete from the second
tick on, a screen point with a finite `x` hits geometry, `convert` swaps the first
two axes, `glReadPixels` writes the pixel of row 0, column 0 only, and the
projection builder returns the near/far pair it is given. -/
def sampleEngine : Engine Nat where
  fdiv := fun a _ => a
  convert := fun _ p _ _ => { x := p.y, y := p.x, z := p.z }
  transform := fun _ position => position
  glViewMatrix := fun position => position.data
  glProjectionMatrix := fun _ near far => [near, far]
  dataTick := fun d => (none, { d with ext := d.ext + 1 })
  renderTickPrepare := fun d => (none, d)
  renderTickRender := fun d => (none, d)
  getMapRenderComplete := fun d => decide (2 ≤ d.ext)
  render := fun d => (none, d)
  glFenceSync := fun e => (some 1, e)
  glClientWaitSync := fun e _ => (false, e)
  glDeleteSync := fun e _ => e
  glFinish := fun e => e
  glBindReadTarget := fun d => (none, d)
  glReadPixels := fun _ _ _ _ _ row col =>
    match row, col with
    | 0, 0 => some { c0 := 1, c1 := 2, c2 := 3 }
    | _, _ => none
  getWorldPosition := fun _ keypoint =>
    match keypoint.x with
    | .finite _ => { x := keypoint.x, y := keypoint.y, z := Double.finite 7 }
    | _ => { x := Double.nan, y := Double.nan, z := Double.nan }

/-- A sample view: a 3 by 2 viewport and three keypoints, the second of them off
the geometry. -/
def sampleView : View where
  camera := { data := [] }
  position := { data := [] }
  viewport := { x := 0, y := 0, width := 3, height := 2 }
  keypoints :=
    [ { x := Double.finite 1, y := Double.finite 2 }
    , { x := Double.inf false, y := Double.finite 0 }
    , { x := Double.finite 5, y := Double.finite 6 } ]

/-- A sample session that has finished its bootstrap. -/
def sampleDetail : Detail Nat where
  callbacks :=
    { mapconfigReady := some Callback.mapconfigReady
      cameraOverrideView := none
      cameraOverrideFovAspectNearFar := none
      cameraOverrideProj := none
      others := [Callback.external 0] }
  windowSize := { width := 1, height := 1 }
  options := { width := 0, height := 0, renderAtmosphere := true, colorToTargetFrameBuffer := true }
  mcReady := true
  ext := 0

/-- The sample engine with a renderer whose `render` throws after clearing the hooks. -/
def faultyEngine : Engine Nat :=
  { sampleEngine with
    render := fun d =>
      (some (Exn.engine 1),
        { d with callbacks :=
          { mapconfigReady := none, cameraOverrideView := none
            cameraOverrideFovAspectNearFar := none, cameraOverrideProj := none, others := [] } }) }

/-- A sample configuration. -/
def sampleConfig : Config where
  mapConfigUrl := "map"
  authUrl := "auth"
  customSrs1 := "srs1"
  customSrs2 := "srs2"

/-- The enumeration of the two devices 7 and 8. -/
def twoDevices : Except Exn (List Device) :=
  .ok [{ handle := some 7 }, { handle := some 8 }]

/-- The enumeration of the single device 7. -/
def oneDevice : Except Exn (List Device) :=
  .ok [{ handle := some 7 }]

/-- A worker of the sample pools, freshly spawned. -/
def sampleThread (threadId : Int) (handle : Nat) : Thread where
  threadId := threadId
  config := sampleConfig
  device := { handle := some handle }
  phase := Phase.boot
  joinable := true

/-- The sample request: the sample view, its promise at address 0. -/
def sampleRequest : Request := Request.ctor sampleView 0

/-- The pool of the two devices 7 and 8 when both workers have been started and
lines 407-408 have not run yet. -/
def spawnedPool : AsyncSnapper where
  threads := [sampleThread 0 7, sampleThread 1 8]
  running := false
  requests := []

/-- The pool of the two devices 7 and 8 once the worker of device 7 has finished its
bootstrap and tested `running_` before the constructor set it. -/
def earlyExitPool : AsyncSnapper where
  threads := [{ sampleThread 0 7 with phase := Phase.exited }, sampleThread 1 8]
  running := true
  requests := []

/-- Every `snap` of the sample schedules ends by throwing. -/
def sampleOutcome : Nat → SnapResult :=
  fun _ => SnapResult.threw (Exn.engine 1)

/-- A schedule after which the constructor has returned, the worker of device 7 stands
in the critical section and the worker of device 8 is still building its session. -/
def busyEvents : List Event :=
  [.ctorStep, .ctorStep, .ctorStep, .sessionReady 0, .advance 0]

/-- A schedule after which the constructor has returned and both workers are blocked in
`wait`. -/
def idleEvents : List Event :=
  [.ctorStep, .ctorStep, .ctorStep, .sessionReady 0, .sessionReady 1,
    .advance 0, .advance 0, .advance 0, .advance 1, .advance 1, .advance 1]

/-- A schedule after which the constructor has returned and the only worker has seen the
empty queue and `running_` true (line 452) and has not yet called `wait` (line 453). -/
def racingEvents : List Event :=
  [.ctorStep, .ctorStep, .sessionReady 0, .advance 0, .advance 0]

/-! ## Part 3: properties -/

/-! ### Sequencing -/

theorem Exec.bind_returns {σ α β : Type} (m : Exec σ α) (f : α → Exec σ β) (s : σ) (b : β)
    (s2 : σ) :
    (m >>= f) s = .returns b s2 ↔ ∃ a s1, m s = .returns a s1 ∧ f a s1 = .returns b s2 := by
  show Exec.bind m f s = _ ↔ _
  unfold Exec.bind
  cases h : m s with
  | returns a s1 =>
    constructor
    · intro hf
      exact ⟨a, s1, rfl, hf⟩
    · rintro ⟨a1, s3, hm, hf⟩
      cases hm
      exact hf
  | throws e s1 => simp
  | diverges => simp

theorem Exec.get_returns {σ : Type} (s a s1 : σ) :
    (Exec.get : Exec σ σ) s = .returns a s1 ↔ a = s ∧ s1 = s := by
  unfold Exec.get
  constructor
  · intro h
    cases h
    exact ⟨rfl, rfl⟩
  · rintro ⟨rfl, rfl⟩
    rfl

theorem Exec.pure_returns {σ α : Type} (x a : α) (s s1 : σ) :
    (pure x : Exec σ α) s = .returns a s1 ↔ a = x ∧ s1 = s := by
  show Outcome.returns x s = .returns a s1 ↔ _
  constructor
  · intro h
    cases h
    exact ⟨rfl, rfl⟩
  · rintro ⟨rfl, rfl⟩
    rfl

/-! ### The capture protocol -/

theorem sampleKeypoints_keypoints {ε : Type} (eng : Engine ε) (e : ε) (kps : List Point2)
    (snapshot : Snapshot) :
    (sampleKeypoints eng e kps snapshot).keypoints
      = snapshot.keypoints ++ kps.filterMap (fun keypoint =>
          if (eng.getWorldPosition e keypoint).x.isnan
              || (eng.getWorldPosition e keypoint).y.isnan
              || (eng.getWorldPosition e keypoint).z.isnan then none
          else some
            { image := keypoint
              world := eng.convert e (eng.getWorldPosition e keypoint) Srs.Physical Srs.Custom1 }) := by
  induction kps generalizing snapshot with
  | nil => simp [sampleKeypoints]
  | cons kp rest ih =>
    simp only [sampleKeypoints, List.filterMap_cons]
    split <;> simp_all

theorem sampleKeypoints_image {ε : Type} (eng : Engine ε) (e : ε) (kps : List Point2)
    (snapshot : Snapshot) :
    (sampleKeypoints eng e kps snapshot).image = snapshot.image := by
  induction kps generalizing snapshot with
  | nil => simp [sampleKeypoints]
  | cons kp rest ih =>
    simp only [sampleKeypoints]
    split <;> simp_all

theorem snapBody_returns {ε : Type} (eng : Engine ε) (fuel : Nat) (view : View)
    (position : CameraPosition) (d d1 : Detail ε) (snapshot : Snapshot)
    (h : Detail.snapBody eng fuel view position d = .returns snapshot d1) :
    snapshot = sampleKeypoints eng d1.ext view.keypoints
      { image := ((Snapshot.ctor view.viewport.size).image.readInto
          (eng.glReadPixels d1.ext 0 0 view.viewport.size.width view.viewport.size.height)).flip
        keypoints := [] } := by
  simp only [Detail.snapBody, Detail.snapTail, Exec.bind_returns, Exec.get_returns,
    Exec.pure_returns] at h
  obtain ⟨_, _, _, _, _, _, _, _, _, _, _, _, _, _, _, _, _, _, w, s, ⟨hw, hs⟩, hsnap, hd⟩ := h
  subst hw hs hd
  exact hsnap

theorem scope_returns {ε α : Type} (body : Exec (Detail ε) α) (d d2 : Detail ε) (a : α)
    (h : MapCallbackHolder.scope body d = .returns a d2) :
    ∃ d1, body d = .returns a d1 ∧ d2 = { d1 with callbacks := d.callbacks } := by
  unfold MapCallbackHolder.scope at h
  cases hb : body d with
  | returns a1 d1 =>
    rw [hb] at h
    cases h
    exact ⟨d1, rfl, rfl⟩
  | throws e d1 => rw [hb] at h; cases h
  | diverges => rw [hb] at h; cases h

theorem snap_eq {ε : Type} (eng : Engine ε) (fuel : Nat) (view : View) (d : Detail ε) :
    Detail.snap eng fuel view d
      = MapCallbackHolder.scope
          (Detail.snapBody eng fuel view
            (eng.transform (prod eng { d with windowSize := view.viewport.size }) view.position))
          { d with windowSize := view.viewport.size } := rfl

theorem snap_returns {ε : Type} (eng : Engine ε) (fuel : Nat) (view : View)
    (d d2 : Detail ε) (snapshot : Snapshot)
    (h : Detail.snap eng fuel view d = .returns snapshot d2) :
    snapshot = sampleKeypoints eng d2.ext view.keypoints
      { image := ((Snapshot.ctor view.viewport.size).image.readInto
          (eng.glReadPixels d2.ext 0 0 view.viewport.size.width view.viewport.size.height)).flip
        keypoints := [] } := by
  rw [snap_eq] at h
  obtain ⟨d1, hb, rfl⟩ := scope_returns _ _ _ _ h
  have hs := snapBody_returns eng fuel view _ _ _ _ hb
  exact hs

theorem scope_throws {ε α : Type} (body : Exec (Detail ε) α) (d d2 : Detail ε) (e : Exn)
    (h : MapCallbackHolder.scope body d = .throws e d2) :
    ∃ d1, body d = .throws e d1 ∧ d2 = { d1 with callbacks := d.callbacks } := by
  unfold MapCallbackHolder.scope at h
  cases hb : body d with
  | returns a1 d1 => rw [hb] at h; cases h
  | throws e1 d1 =>
    rw [hb] at h
    cases h
    exact ⟨d1, rfl, rfl⟩
  | diverges => rw [hb] at h; cases h

theorem readInto_flip_shape (px : Nat → Nat → Option Vec3b) (img : Image) (w : Nat)
    (hrow : ∀ row ∈ img.data, row.length = w) :
    (img.readInto px).flip.rows = img.rows ∧ (img.readInto px).flip.cols = img.cols
      ∧ (img.readInto px).flip.data.length = img.data.length
      ∧ ∀ row ∈ (img.readInto px).flip.data, row.length = w := by
  refine ⟨rfl, rfl, ?_, ?_⟩
  · simp [Image.flip, Image.readInto]
  · intro row hmem
    simp only [Image.flip, Image.readInto, List.mem_reverse, List.mem_mapIdx] at hmem
    obtain ⟨i, hi, rfl⟩ := hmem
    simp only [List.length_mapIdx]
    exact hrow _ (List.getElem_mem _)

/-- C1: when `snap` returns a Snapshot, its keypoint list is the sub-sequence of
`view.keypoints`, in order, of the keypoints whose queried world position has no NaN
coordinate; each is paired, unchanged, with the queried position converted from the
physical frame to Custom1. The queries are made in the renderer state the call ends in,
and the engine (hence every outcome of the query) is arbitrary. -/
theorem snap_keypoints {ε : Type} (eng : Engine ε) (fuel : Nat) (view : View)
    (d d2 : Detail ε) (snapshot : Snapshot)
    (h : Detail.snap eng fuel view d = .returns snapshot d2) :
    snapshot.keypoints
      = view.keypoints.filterMap (fun keypoint =>
          if (eng.getWorldPosition d2.ext keypoint).x.isnan
              || (eng.getWorldPosition d2.ext keypoint).y.isnan
              || (eng.getWorldPosition d2.ext keypoint).z.isnan then none
          else some
            { image := keypoint
              world := eng.convert d2.ext (eng.getWorldPosition d2.ext keypoint)
                Srs.Physical Srs.Custom1 }) := by
  rw [snap_returns eng fuel view d d2 snapshot h, sampleKeypoints_keypoints]
  rfl

theorem snap_keypoints_witness :
    ∃ snapshot d2, Detail.snap sampleEngine 3 sampleView sampleDetail = .returns snapshot d2
      ∧ snapshot.keypoints
        = [ { image := { x := Double.finite 1, y := Double.finite 2 }
              world := { x := Double.finite 2, y := Double.finite 1, z := Double.finite 7 } }
          , { image := { x := Double.finite 5, y := Double.finite 6 }
              world := { x := Double.finite 6, y := Double.finite 5, z := Double.finite 7 } } ] :=
  ⟨_, _, rfl, (snap_keypoints sampleEngine 3 sampleView sampleDetail _ _ rfl).trans rfl⟩

/-- C3: whenever `snap` exits, by returning a Snapshot or by throwing, the hook set of
the map is the one it had when `snap` was entered, whatever the collaborators did to it
in between. -/
theorem snap_restores_callbacks {ε : Type} (eng : Engine ε) (fuel : Nat) (view : View)
    (d : Detail ε) :
    (∀ snapshot d2, Detail.snap eng fuel view d = .returns snapshot d2 →
        d2.callbacks = d.callbacks)
      ∧ (∀ e d2, Detail.snap eng fuel view d = .throws e d2 → d2.callbacks = d.callbacks) := by
  constructor
  · intro snapshot d2 h
    rw [snap_eq] at h
    obtain ⟨d1, _, rfl⟩ := scope_returns _ _ _ _ h
    rfl
  · intro e d2 h
    rw [snap_eq] at h
    obtain ⟨d1, _, rfl⟩ := scope_throws _ _ _ _ h
    rfl

theorem snap_restores_callbacks_witness :
    (∃ snapshot d2, Detail.snap sampleEngine 3 sampleView sampleDetail = .returns snapshot d2
        ∧ d2.callbacks = sampleDetail.callbacks)
      ∧ (∃ d2, Detail.snap faultyEngine 3 sampleView sampleDetail = .throws (Exn.engine 1) d2
        ∧ d2.callbacks = sampleDetail.callbacks) :=
  ⟨⟨_, _, rfl, (snap_restores_callbacks sampleEngine 3 sampleView sampleDetail).1 _ _ rfl⟩,
   ⟨_, rfl, (snap_restores_callbacks faultyEngine 3 sampleView sampleDetail).2 _ _ rfl⟩⟩

/-- C8, as the code has it: the projection hook that `snap` installs calls the builder
with the view's intrinsics and the fixed pair (10.0, 100000.0). Neither the copies of
`near` and `far` the closure holds nor the pair the clip-plane hook stores enters the
call, so any two engine-reported pairs give the same projection input. -/
theorem projection_hook_fixed_near_far {ε : Type} (eng : Engine ε) (fuel : Nat) (view : View)
    (position : CameraPosition) (near far n f : Double) (cell : ClipPlanes)
    (mc : MapCallbacks) (d : Detail ε) :
    Detail.snapBody eng fuel view position d
        = Detail.snapTail eng fuel view
            { d with callbacks :=
                installHooks view position (Double.finite 0) (Double.finite 0) d.callbacks }
      ∧ (installHooks view position near far mc).cameraOverrideProj
        = some (Callback.overrideProj view near far)
      ∧ (installHooks view position near far mc).cameraOverrideFovAspectNearFar
        = some Callback.captureNearFar
      ∧ Callback.captureNearFar.invokeNearFar cell n f = { near := n, far := f }
      ∧ (Callback.overrideProj view near far).invokeProj eng
        = some (eng.glProjectionMatrix view.camera (Double.finite 10) (Double.finite 100000)) :=
  ⟨rfl, rfl, rfl, rfl, rfl⟩

/-- C8 fails as stated: the engine reports (20, 500), the clip-plane hook stores it, the
clamp of the specification leaves it as it is, yet the builder receives
(10, 100000); and the reports (20, 500) and (30, 600) give the same projection input. -/
theorem projection_clamp_counterexample :
    Callback.captureNearFar.invokeNearFar { near := Double.finite 0, far := Double.finite 0 }
        (Double.finite 20) (Double.finite 500)
        = { near := Double.finite 20, far := Double.finite 500 }
      ∧ specNearFar { near := Double.finite 20, far := Double.finite 500 }
        = (Double.finite 20, Double.finite 500)
      ∧ Option.bind
          (installHooks sampleView sampleView.position (Double.finite 0) (Double.finite 0)
            sampleDetail.callbacks).cameraOverrideProj
          (Callback.invokeProj sampleEngine)
        = some [Double.finite 10, Double.finite 100000]
      ∧ some [Double.finite 10, Double.finite 100000]
        ≠ some (sampleEngine.glProjectionMatrix sampleView.camera
            (specNearFar { near := Double.finite 20, far := Double.finite 500 }).1
            (specNearFar { near := Double.finite 20, far := Double.finite 500 }).2)
      ∧ specNearFar { near := Double.finite 20, far := Double.finite 500 }
        ≠ specNearFar { near := Double.finite 30, far := Double.finite 600 }
      ∧ (Callback.overrideProj sampleView (Double.finite 20) (Double.finite 500)).invokeProj
          sampleEngine
        = (Callback.overrideProj sampleView (Double.finite 30) (Double.finite 600)).invokeProj
          sampleEngine := by
  have h1 : specNearFar { near := Double.finite 20, far := Double.finite 500 }
      = (Double.finite 20, Double.finite 500) := by
    simp only [specNearFar, Double.clamp]
    norm_num
  have h2 : specNearFar { near := Double.finite 30, far := Double.finite 600 }
      = (Double.finite 30, Double.finite 600) := by
    simp only [specNearFar, Double.clamp]
    norm_num
  refine ⟨rfl, h1, rfl, ?_, ?_, rfl⟩
  · rw [h1]
    simp [sampleEngine]
  · rw [h1, h2]
    simp

/-- C9: the image of a fresh `Snapshot(size)` has `size.height` rows of `size.width`
pixels, every one the red (0, 0, 255) in BGR order; and the Snapshot that `snap` returns
has an image of the viewport's height and width. -/
theorem snapshot_image_shape {ε : Type} (size : Size2) (eng : Engine ε) (fuel : Nat)
    (view : View) (d d2 : Detail ε) (snapshot : Snapshot) :
    ((Snapshot.ctor size).image.rows = size.height
        ∧ (Snapshot.ctor size).image.cols = size.width
        ∧ (Snapshot.ctor size).image.data.length = size.height
        ∧ ∀ row ∈ (Snapshot.ctor size).image.data,
            row.length = size.width ∧ ∀ px ∈ row, px = { c0 := 0, c1 := 0, c2 := 255 })
      ∧ (Detail.snap eng fuel view d = .returns snapshot d2 →
          snapshot.image.rows = view.viewport.size.height
            ∧ snapshot.image.cols = view.viewport.size.width
            ∧ snapshot.image.data.length = view.viewport.size.height
            ∧ ∀ row ∈ snapshot.image.data, row.length = view.viewport.size.width) := by
  have fresh : ∀ sz : Size2, (Snapshot.ctor sz).image.data.length = sz.height
      ∧ ∀ row ∈ (Snapshot.ctor sz).image.data,
          row.length = sz.width ∧ ∀ px ∈ row, px = { c0 := 0, c1 := 0, c2 := 255 } := by
    intro sz
    refine ⟨by simp [Snapshot.ctor, Image.filled], ?_⟩
    intro row hrow
    simp only [Snapshot.ctor, Image.filled] at hrow
    obtain ⟨_, rfl⟩ := List.mem_replicate.mp hrow
    refine ⟨by simp, ?_⟩
    intro px hpx
    exact (List.mem_replicate.mp hpx).2
  refine ⟨⟨rfl, rfl, (fresh size).1, (fresh size).2⟩, ?_⟩
  intro h
  rw [snap_returns eng fuel view d d2 snapshot h, sampleKeypoints_image]
  have hshape := readInto_flip_shape
    (eng.glReadPixels d2.ext 0 0 view.viewport.size.width view.viewport.size.height)
    (Snapshot.ctor view.viewport.size).image view.viewport.size.width
    (fun row hrow => ((fresh view.viewport.size).2 row hrow).1)
  refine ⟨hshape.1, hshape.2.1, ?_, hshape.2.2.2⟩
  rw [hshape.2.2.1]
  exact (fresh view.viewport.size).1

theorem snapshot_image_shape_witness :
    ∃ snapshot d2, Detail.snap sampleEngine 3 sampleView sampleDetail = .returns snapshot d2
      ∧ snapshot.image.rows = 2 ∧ snapshot.image.cols = 3
      ∧ snapshot.image.data.length = 2
      ∧ ∀ row ∈ snapshot.image.data, row.length = 3 :=
  ⟨_, _, rfl,
    (snapshot_image_shape { width := 3, height := 2 } sampleEngine 3 sampleView sampleDetail
      _ _).2 rfl⟩

/-! ### The pool: how one transition changes the process -/

theorem step_aborted (s : System) (ev : Event) (h : s.aborted = true) : s.step ev = s := by
  simp [System.step, h]

theorem run_aborted (s : System) (events : List Event) (h : s.aborted = true) :
    s.run events = s := by
  induction events with
  | nil => rfl
  | cons ev rest ih =>
    show (s.step ev).run rest = s
    rw [step_aborted s ev h]
    exact ih

theorem run_append (s : System) (a b : List Event) : s.run (a ++ b) = (s.run a).run b := by
  simp [System.run, List.foldl_append]

theorem run_cons (s : System) (ev : Event) (rest : List Event) :
    s.run (ev :: rest) = (s.step ev).run rest := rfl

theorem step_ctorStep (s : System) (h : s.aborted = false) :
    s.step .ctorStep
      = match s.ctor with
        | .spawning config threadId (device :: rest) =>
            { s with
              pool := { s.pool with threads := s.pool.threads ++
                [{ threadId := threadId, config := config, device := device
                   phase := Phase.boot, joinable := true }] }
              ctor := Ctor.spawning config (threadId + 1) rest }
        | .spawning _ _ [] =>
            { s with pool := { s.pool with running := true }, ctor := Ctor.done }
        | .unwinding e =>
            match s.stop with
            | .returned => { s with ctor := Ctor.failed e }
            | .failed _ => { s with aborted := true }
            | _ => s
        | _ => s := by
  simp [System.step, h]

theorem step_threadCreationFails (s : System) (h : s.aborted = false) :
    s.step .threadCreationFails
      = match s.ctor with
        | .spawning _ _ (_ :: _) =>
            { s.stopSignal with ctor := Ctor.unwinding Exn.resourceUnavailable }
        | _ => s := by
  simp [System.step, h]

theorem step_submit (s : System) (view : View) (h : s.aborted = false) :
    s.step (.submit view)
      = { s with
          pool := { s.pool with
            requests := s.pool.requests ++ [Request.ctor view s.shared.length] }.notify_all
          shared := s.shared ++ [none]
          log := s.log ++ [Obs.enqueued (Request.ctor view s.shared.length)] } := by
  simp [System.step, h]

theorem step_sessionReady (s : System) (i : Nat) (h : s.aborted = false) :
    s.step (.sessionReady i)
      = match s.pool.phase? i with
        | some .boot => { s with pool := s.pool.setPhase i Phase.loopHead }
        | _ => s := by
  simp [System.step, h]

theorem step_sessionFailed (s : System) (i : Nat) (e : Exn) (h : s.aborted = false) :
    s.step (.sessionFailed i e)
      = match s.pool.phase? i with
        | some .boot => { s with aborted := true }
        | _ => s := by
  simp [System.step, h]

theorem step_advance (s : System) (i : Nat) (h : s.aborted = false) :
    s.step (.advance i)
      = { s with pool := (s.pool.advance i).1, log := s.log ++ (s.pool.advance i).2 } := by
  simp [System.step, h]

theorem step_snapDone (s : System) (i : Nat) (result : SnapResult) (h : s.aborted = false) :
    s.step (.snapDone i result)
      = match s.pool.phase? i with
        | some (.serving request) =>
            match resolve request result s.shared with
            | .ok shared1 =>
                { s with
                  pool := s.pool.setPhase i Phase.loopHead
                  shared := shared1
                  log := s.log ++ [Obs.resolved i request] }
            | .error _ => { s with aborted := true }
        | _ => s := by
  simp [System.step, h]

theorem step_spuriousWake (s : System) (i : Nat) (h : s.aborted = false) :
    s.step (.spuriousWake i)
      = match s.pool.phase? i with
        | some .waiting => { s with pool := s.pool.setPhase i Phase.loopHead }
        | _ => s := by
  simp [System.step, h]

theorem step_stopCall (s : System) (h : s.aborted = false) :
    s.step .stopCall
      = match s.ctor, s.stop with
        | .done, .joining _ => s
        | .done, _ => s.stopSignal
        | _, _ => s := by
  simp [System.step, h]

theorem step_stopJoin (s : System) (h : s.aborted = false) :
    s.step .stopJoin
      = match s.stop with
        | .joining k =>
            match s.pool.threads[k]? with
            | none => { s with stop := Stop.returned }
            | some t =>
                if !t.joinable then { s with stop := Stop.failed Exn.invalidArgument }
                else
                  match t.phase with
                  | .exited =>
                      { s with
                        pool := s.pool.markJoined k
                        stop := Stop.enter (k + 1) s.pool.threads.length }
                  | _ => s
        | _ => s := by
  simp [System.step, h]

/-! ### The pool: threads under the operations on `threads_` -/

theorem phase?_eq (self : AsyncSnapper) (i : Nat) (t : Thread)
    (h : self.threads[i]? = some t) : self.phase? i = some t.phase := by
  simp [AsyncSnapper.phase?, h]

theorem phase?_some (self : AsyncSnapper) (i : Nat) (ph : Phase)
    (h : self.phase? i = some ph) : ∃ t, self.threads[i]? = some t ∧ t.phase = ph := by
  unfold AsyncSnapper.phase? at h
  cases ht : self.threads[i]? with
  | none => rw [ht] at h; cases h
  | some t =>
    rw [ht] at h
    simp only [Option.map_some', Option.some.injEq] at h
    exact ⟨t, rfl, h⟩

theorem getElem?_setPhase (self : AsyncSnapper) (i j : Nat) (ph : Phase) :
    (self.setPhase j ph).threads[i]?
      = if j = i then (self.threads[i]?).map (fun t => { t with phase := ph })
        else self.threads[i]? := by
  simp only [AsyncSnapper.setPhase, List.getElem?_modify]
  by_cases h : j = i
  · subst h
    cases self.threads[j]? <;> simp
  · cases self.threads[i]? <;> simp [h]

theorem getElem?_markJoined (self : AsyncSnapper) (i j : Nat) :
    (self.markJoined j).threads[i]?
      = if j = i then (self.threads[i]?).map (fun t => { t with joinable := false })
        else self.threads[i]? := by
  simp only [AsyncSnapper.markJoined, List.getElem?_modify]
  by_cases h : j = i
  · subst h
    cases self.threads[j]? <;> simp
  · cases self.threads[i]? <;> simp [h]

theorem getElem?_notify_all (self : AsyncSnapper) (i : Nat) :
    self.notify_all.threads[i]?
      = (self.threads[i]?).map (fun t =>
          match t.phase with
          | .waiting => { t with phase := Phase.loopHead }
          | _ => t) := by
  simp [AsyncSnapper.notify_all]

theorem phase?_setPhase (self : AsyncSnapper) (i j : Nat) (ph : Phase) :
    (self.setPhase j ph).phase? i
      = if j = i then (self.phase? i).map (fun _ => ph) else self.phase? i := by
  simp only [AsyncSnapper.phase?, getElem?_setPhase]
  by_cases h : j = i
  · simp only [h, if_true]
    cases self.threads[i]? <;> rfl
  · simp only [h, if_false]

theorem phase?_setPhase_self (self : AsyncSnapper) (i : Nat) (ph ph0 : Phase)
    (h : self.phase? i = some ph0) : (self.setPhase i ph).phase? i = some ph := by
  rw [phase?_setPhase, if_pos rfl, h]
  rfl

theorem phase?_markJoined (self : AsyncSnapper) (i j : Nat) :
    (self.markJoined j).phase? i = self.phase? i := by
  simp only [AsyncSnapper.phase?, getElem?_markJoined]
  by_cases h : j = i
  · simp only [h, if_true]
    cases self.threads[i]? <;> rfl
  · simp only [h, if_false]

theorem phase?_notify_all (self : AsyncSnapper) (i : Nat) :
    self.notify_all.phase? i
      = (self.phase? i).map (fun ph =>
          match ph with
          | .waiting => Phase.loopHead
          | other => other) := by
  simp only [AsyncSnapper.phase?, getElem?_notify_all]
  cases self.threads[i]? with
  | none => rfl
  | some t =>
    simp only [Option.map_some']
    cases hp : t.phase <;> simp [hp]

theorem setPhase_requests (self : AsyncSnapper) (i : Nat) (ph : Phase) :
    (self.setPhase i ph).requests = self.requests := rfl

theorem notify_all_requests (self : AsyncSnapper) :
    self.notify_all.requests = self.requests := rfl

theorem notify_all_length (self : AsyncSnapper) :
    self.notify_all.threads.length = self.threads.length := by
  simp [AsyncSnapper.notify_all]

theorem setPhase_length (self : AsyncSnapper) (i : Nat) (ph : Phase) :
    (self.setPhase i ph).threads.length = self.threads.length := by
  simp [AsyncSnapper.setPhase]

theorem markJoined_length (self : AsyncSnapper) (i : Nat) :
    (self.markJoined i).threads.length = self.threads.length := by
  simp [AsyncSnapper.markJoined]

/-- What a step of a worker does to the queue: nothing, or it takes the front
request, and then the worker stood in the critical section. -/
theorem advance_cases (self : AsyncSnapper) (i : Nat) :
    ((self.advance i).2 = [] ∧ (self.advance i).1.requests = self.requests)
      ∨ ∃ request rest, self.phase? i = some Phase.critical
          ∧ self.requests = request :: rest
          ∧ self.advance i
            = ({ self with requests := rest }.setPhase i (Phase.serving request),
                [Obs.dequeued i request]) := by
  unfold AsyncSnapper.advance
  split
  · split <;> exact Or.inl ⟨rfl, rfl⟩
  · rename_i hph
    split
    · split <;> exact Or.inl ⟨rfl, rfl⟩
    · rename_i request rest hreq
      exact Or.inr ⟨request, rest, hph, hreq, rfl⟩
  · exact Or.inl ⟨rfl, rfl⟩
  · exact Or.inl ⟨rfl, rfl⟩

theorem advance_length (self : AsyncSnapper) (i : Nat) :
    (self.advance i).1.threads.length = self.threads.length := by
  unfold AsyncSnapper.advance
  split
  · split <;> simp [AsyncSnapper.setPhase]
  · split
    · split <;> simp [AsyncSnapper.setPhase]
    · simp [AsyncSnapper.setPhase]
  · simp [AsyncSnapper.setPhase]
  · rfl

theorem resolve_ok (request : Request) (result : SnapResult)
    (shared shared1 : List (Option Resolution))
    (h : resolve request result shared = .ok shared1) :
    shared[request.promise.shared]? = some none
      ∧ shared1 = shared.set request.promise.shared (some result.resolution) := by
  unfold resolve at h
  cases result with
  | returned snapshot =>
    simp only [Promise.set_value, Promise.set_exception] at h
    cases hs : shared[request.promise.shared]? with
    | none => rw [hs] at h; simp at h
    | some v =>
      cases v with
      | none =>
        rw [hs] at h
        simp only [Except.ok.injEq] at h
        exact ⟨rfl, h.symm⟩
      | some r => rw [hs] at h; simp at h
  | threw e =>
    simp only [Promise.set_exception] at h
    cases hs : shared[request.promise.shared]? with
    | none => rw [hs] at h; simp at h
    | some v =>
      cases v with
      | none =>
        rw [hs] at h
        simp only [Except.ok.injEq] at h
        exact ⟨rfl, h.symm⟩
      | some r => rw [hs] at h; simp at h

theorem resolve_unsatisfied (request : Request) (result : SnapResult)
    (shared : List (Option Resolution)) (h : shared[request.promise.shared]? = some none) :
    resolve request result shared
      = .ok (shared.set request.promise.shared (some result.resolution)) := by
  cases result <;>
    simp [resolve, Promise.set_value, Promise.set_exception, h, SnapResult.resolution]

/-- What one transition does to the queue, the shared states and the log: nothing, or
a submission, or a worker taking the front request, or a worker satisfying the promise
of the request it serves. -/
theorem step_effect (s : System) (ev : Event) :
    ((s.step ev).pool.requests = s.pool.requests ∧ (s.step ev).shared = s.shared
        ∧ (s.step ev).log = s.log)
      ∨ (∃ view, ev = .submit view ∧ s.aborted = false
          ∧ (s.step ev).pool.requests
            = s.pool.requests ++ [Request.ctor view s.shared.length]
          ∧ (s.step ev).shared = s.shared ++ [none]
          ∧ (s.step ev).log = s.log ++ [Obs.enqueued (Request.ctor view s.shared.length)])
      ∨ (∃ j r rest, ev = .advance j ∧ s.aborted = false
          ∧ s.pool.phase? j = some Phase.critical
          ∧ s.pool.requests = r :: rest
          ∧ (s.step ev).pool.requests = rest ∧ (s.step ev).shared = s.shared
          ∧ (s.step ev).log = s.log ++ [Obs.dequeued j r])
      ∨ (∃ j r result, ev = .snapDone j result ∧ s.aborted = false
          ∧ s.pool.phase? j = some (Phase.serving r)
          ∧ s.shared[r.promise.shared]? = some none
          ∧ (s.step ev).pool.requests = s.pool.requests
          ∧ (s.step ev).shared = s.shared.set r.promise.shared (some result.resolution)
          ∧ (s.step ev).log = s.log ++ [Obs.resolved j r]) := by
  cases hab : s.aborted with
  | true => rw [step_aborted s ev hab]; exact Or.inl ⟨rfl, rfl, rfl⟩
  | false =>
    cases ev with
    | ctorStep =>
      rw [step_ctorStep s hab]
      left
      split
      · exact ⟨rfl, rfl, rfl⟩
      · exact ⟨rfl, rfl, rfl⟩
      · split <;> exact ⟨rfl, rfl, rfl⟩
      · exact ⟨rfl, rfl, rfl⟩
    | threadCreationFails =>
      rw [step_threadCreationFails s hab]
      left
      split <;> exact ⟨rfl, rfl, rfl⟩
    | submit view =>
      rw [step_submit s view hab]
      exact Or.inr (Or.inl ⟨view, rfl, rfl, rfl, rfl, rfl⟩)
    | sessionReady i =>
      rw [step_sessionReady s i hab]
      left
      split <;> exact ⟨rfl, rfl, rfl⟩
    | sessionFailed i e =>
      rw [step_sessionFailed s i e hab]
      left
      split <;> exact ⟨rfl, rfl, rfl⟩
    | advance i =>
      rw [step_advance s i hab]
      rcases advance_cases s.pool i with ⟨hobs, hreq⟩ | ⟨request, rest, hph, hreq, hadv⟩
      · left
        exact ⟨hreq, rfl, by simp [hobs]⟩
      · right; right; left
        exact ⟨i, request, rest, rfl, rfl, hph, hreq, by rw [hadv]; rfl, rfl, by rw [hadv]⟩
    | snapDone i result =>
      rw [step_snapDone s i result hab]
      split
      · rename_i request hph
        split
        · rename_i shared1 hres
          obtain ⟨hnone, hset⟩ := resolve_ok request result s.shared shared1 hres
          right; right; right
          exact ⟨i, request, result, rfl, rfl, hph, hnone, rfl, hset, rfl⟩
        · exact Or.inl ⟨rfl, rfl, rfl⟩
      · exact Or.inl ⟨rfl, rfl, rfl⟩
    | spuriousWake i =>
      rw [step_spuriousWake s i hab]
      left
      split <;> exact ⟨rfl, rfl, rfl⟩
    | stopCall =>
      rw [step_stopCall s hab]
      left
      split <;> exact ⟨rfl, rfl, rfl⟩
    | stopJoin =>
      rw [step_stopJoin s hab]
      left
      split
      · split
        · exact ⟨rfl, rfl, rfl⟩
        · split
          · exact ⟨rfl, rfl, rfl⟩
          · split <;> exact ⟨rfl, rfl, rfl⟩
      · exact ⟨rfl, rfl, rfl⟩

/-! ### The pool: the control flow of a worker -/

theorem threadMoves_refl (s : System) (ev : Event) (i : Nat) (t : Thread) :
    s.ThreadMoves ev i t t :=
  ⟨rfl, rfl, rfl, Or.inl rfl, Or.inl rfl⟩

theorem moves_setPhase (s : System) (ev : Event) (i j : Nat) (t : Thread) (ph : Phase)
    (p : AsyncSnapper) (hp : p.threads = s.pool.threads)
    (h : s.pool.threads[i]? = some t) (hm : j = i → s.Moves ev i t.phase ph) :
    ∃ u, (p.setPhase j ph).threads[i]? = some u ∧ s.ThreadMoves ev i t u := by
  rw [getElem?_setPhase, hp, h]
  by_cases hji : j = i
  · simp only [hji, if_true, Option.map_some']
    exact ⟨_, rfl, rfl, rfl, rfl, Or.inr (hm hji), Or.inl rfl⟩
  · simp only [hji, if_false]
    exact ⟨t, rfl, threadMoves_refl s ev i t⟩

theorem moves_notify_all (s : System) (ev : Event) (i : Nat) (t : Thread)
    (p : AsyncSnapper) (hp : p.threads = s.pool.threads)
    (h : s.pool.threads[i]? = some t)
    (hev : (∃ view, ev = .submit view) ∨ ev = .stopCall ∨ ev = .threadCreationFails) :
    ∃ u, p.notify_all.threads[i]? = some u ∧ s.ThreadMoves ev i t u := by
  rw [getElem?_notify_all, hp, h]
  simp only [Option.map_some']
  cases hph : t.phase with
  | waiting =>
    refine ⟨_, rfl, rfl, rfl, rfl, Or.inr ?_, Or.inl rfl⟩
    rw [hph]
    exact Or.inr hev
  | boot => exact ⟨t, rfl, threadMoves_refl s ev i t⟩
  | loopHead => exact ⟨t, rfl, threadMoves_refl s ev i t⟩
  | critical => exact ⟨t, rfl, threadMoves_refl s ev i t⟩
  | preWait => exact ⟨t, rfl, threadMoves_refl s ev i t⟩
  | serving r => exact ⟨t, rfl, threadMoves_refl s ev i t⟩
  | exited => exact ⟨t, rfl, threadMoves_refl s ev i t⟩

theorem moves_advance (s : System) (i j : Nat) (t : Thread)
    (h : s.pool.threads[i]? = some t) :
    ∃ u, (s.pool.advance j).1.threads[i]? = some u ∧ s.ThreadMoves (.advance j) i t u := by
  have hphase := phase?_eq s.pool i t h
  unfold AsyncSnapper.advance
  split
  · rename_i hph
    split
    · rename_i hrun
      apply moves_setPhase s _ i j t _ s.pool rfl h
      intro hji
      subst hji
      rw [hphase] at hph
      rw [Option.some.inj hph]
      exact ⟨rfl, hrun⟩
    · rename_i hrun
      apply moves_setPhase s _ i j t _ s.pool rfl h
      intro hji
      subst hji
      rw [hphase] at hph
      rw [Option.some.inj hph]
      exact ⟨rfl, by simpa using hrun⟩
  · rename_i hph
    split
    · rename_i hreq
      split
      · rename_i hrun
        apply moves_setPhase s _ i j t _ s.pool rfl h
        intro hji
        subst hji
        rw [hphase] at hph
        rw [Option.some.inj hph]
        exact ⟨rfl, hreq, by simpa using hrun⟩
      · rename_i hrun
        apply moves_setPhase s _ i j t _ s.pool rfl h
        intro hji
        subst hji
        rw [hphase] at hph
        rw [Option.some.inj hph]
        exact ⟨rfl, hreq, by simpa using hrun⟩
    · rename_i request rest hreq
      apply moves_setPhase s _ i j t _ { s.pool with requests := rest } rfl h
      intro hji
      subst hji
      rw [hphase] at hph
      rw [Option.some.inj hph]
      exact ⟨rfl, rest, hreq⟩
  · rename_i hph
    apply moves_setPhase s _ i j t _ s.pool rfl h
    intro hji
    subst hji
    rw [hphase] at hph
    rw [Option.some.inj hph]
    rfl
  · exact ⟨t, h, threadMoves_refl s _ i t⟩

/-- A thread that exists keeps its place in `threads_`, and its record changes only
along the control flow of `worker` and by `join`. -/
theorem step_thread (s : System) (ev : Event) (i : Nat) (t : Thread)
    (h : s.pool.threads[i]? = some t) :
    ∃ u, (s.step ev).pool.threads[i]? = some u ∧ s.ThreadMoves ev i t u := by
  have hphase := phase?_eq s.pool i t h
  have keep : ∃ u, s.pool.threads[i]? = some u ∧ s.ThreadMoves ev i t u :=
    ⟨t, h, threadMoves_refl s ev i t⟩
  cases hab : s.aborted with
  | true => rw [step_aborted s ev hab]; exact keep
  | false =>
    cases ev with
    | ctorStep =>
      rw [step_ctorStep s hab]
      split
      · refine ⟨t, ?_, threadMoves_refl s _ i t⟩
        obtain ⟨hlt, _⟩ := List.getElem?_eq_some.mp h
        show (s.pool.threads ++ _)[i]? = some t
        rw [List.getElem?_append_left hlt]
        exact h
      · exact keep
      · split <;> exact keep
      · exact keep
    | threadCreationFails =>
      rw [step_threadCreationFails s hab]
      split
      · exact moves_notify_all s _ i t { s.pool with running := false } rfl h
          (Or.inr (Or.inr rfl))
      · exact keep
    | submit view =>
      rw [step_submit s view hab]
      exact moves_notify_all s _ i t
        { s.pool with requests := s.pool.requests ++ [Request.ctor view s.shared.length] } rfl h
        (Or.inl ⟨view, rfl⟩)
    | sessionReady j =>
      rw [step_sessionReady s j hab]
      split
      · rename_i hph
        apply moves_setPhase s _ i j t _ s.pool rfl h
        intro hji
        subst hji
        rw [hphase] at hph
        rw [Option.some.inj hph]
        rfl
      · exact keep
    | sessionFailed j e =>
      rw [step_sessionFailed s j e hab]
      split <;> exact keep
    | advance j =>
      rw [step_advance s j hab]
      exact moves_advance s i j t h
    | snapDone j result =>
      rw [step_snapDone s j result hab]
      split
      · rename_i request hph
        split
        · apply moves_setPhase s _ i j t _ s.pool rfl h
          intro hji
          subst hji
          rw [hphase] at hph
          rw [Option.some.inj hph]
          exact ⟨result, rfl⟩
        · exact keep
      · exact keep
    | spuriousWake j =>
      rw [step_spuriousWake s j hab]
      split
      · rename_i hph
        apply moves_setPhase s _ i j t _ s.pool rfl h
        intro hji
        subst hji
        rw [hphase] at hph
        rw [Option.some.inj hph]
        exact Or.inl rfl
      · exact keep
    | stopCall =>
      rw [step_stopCall s hab]
      split
      · exact keep
      · exact moves_notify_all s _ i t { s.pool with running := false } rfl h
          (Or.inr (Or.inl rfl))
      · exact keep
    | stopJoin =>
      rw [step_stopJoin s hab]
      split
      · rename_i k hstop
        split
        · exact keep
        · rename_i t0 ht0
          split
          · exact keep
          · split
            · rename_i hex
              show ∃ u, (s.pool.markJoined k).threads[i]? = some u ∧ _
              rw [getElem?_markJoined, h]
              by_cases hki : k = i
              · subst hki
                rw [h] at ht0
                cases ht0
                simp only [if_true, Option.map_some']
                exact ⟨_, rfl, rfl, rfl, rfl, Or.inl rfl, Or.inr ⟨rfl, hstop, hex, rfl⟩⟩
              · simp only [hki, if_false]
                exact ⟨t, rfl, threadMoves_refl s _ i t⟩
            · exact keep
      · exact keep

/-- A place of `threads_` that is empty stays empty, unless the constructor starts the
next worker there. -/
theorem step_thread_none (s : System) (ev : Event) (i : Nat)
    (h : s.pool.threads[i]? = none) :
    (s.step ev).pool.threads[i]? = none
      ∨ (ev = .ctorStep ∧ i = s.pool.threads.length
          ∧ ∃ config threadId device rest,
              s.ctor = Ctor.spawning config threadId (device :: rest)
              ∧ (s.step ev).pool.threads[i]?
                = some { threadId := threadId, config := config, device := device
                         phase := Phase.boot, joinable := true }) := by
  have hlen : s.pool.threads.length ≤ i := by
    rcases Nat.lt_or_ge i s.pool.threads.length with hlt | hge
    · rw [List.getElem?_eq_getElem hlt] at h
      cases h
    · exact hge
  have keepLen : ∀ p : AsyncSnapper, p.threads.length = s.pool.threads.length →
      p.threads[i]? = none := by
    intro p hp
    exact List.getElem?_eq_none (by rw [hp]; exact hlen)
  cases hab : s.aborted with
  | true => rw [step_aborted s ev hab]; exact Or.inl h
  | false =>
    cases ev with
    | ctorStep =>
      rw [step_ctorStep s hab]
      split
      · rename_i config threadId device rest hctor
        rcases Nat.lt_or_ge s.pool.threads.length i with hlt | hge
        · left
          apply List.getElem?_eq_none
          simp only [List.length_append, List.length_singleton]
          omega
        · right
          have hi : i = s.pool.threads.length := Nat.le_antisymm hge hlen
          refine ⟨rfl, hi, config, threadId, device, rest, hctor, ?_⟩
          subst hi
          simp
      · exact Or.inl h
      · split <;> exact Or.inl h
      · exact Or.inl h
    | threadCreationFails =>
      rw [step_threadCreationFails s hab]
      left
      split
      · exact keepLen _ (by simp [System.stopSignal, AsyncSnapper.notify_all])
      · exact h
    | submit view =>
      rw [step_submit s view hab]
      left
      exact keepLen _ (by simp [AsyncSnapper.notify_all])
    | sessionReady j =>
      rw [step_sessionReady s j hab]
      left
      split
      · exact keepLen _ (setPhase_length _ _ _)
      · exact h
    | sessionFailed j e =>
      rw [step_sessionFailed s j e hab]
      left
      split <;> exact h
    | advance j =>
      rw [step_advance s j hab]
      left
      exact keepLen _ (advance_length _ _)
    | snapDone j result =>
      rw [step_snapDone s j result hab]
      left
      split
      · split
        · exact keepLen _ (setPhase_length _ _ _)
        · exact h
      · exact h
    | spuriousWake j =>
      rw [step_spuriousWake s j hab]
      left
      split
      · exact keepLen _ (setPhase_length _ _ _)
      · exact h
    | stopCall =>
      rw [step_stopCall s hab]
      left
      split
      · exact h
      · exact keepLen _ (by simp [System.stopSignal, AsyncSnapper.notify_all])
      · exact h
    | stopJoin =>
      rw [step_stopJoin s hab]
      left
      split
      · split
        · exact h
        · split
          · exact h
          · split
            · exact keepLen _ (markJoined_length _ _)
            · exact h
      · exact h

/-- Forward: from the phase `p`, worker `i` is next in `p` or at the end of an edge. -/
theorem step_phase (s : System) (ev : Event) (i : Nat) (p : Phase)
    (h : s.pool.phase? i = some p) :
    ∃ q, (s.step ev).pool.phase? i = some q ∧ (q = p ∨ s.Moves ev i p q) := by
  obtain ⟨t, ht, hp⟩ := phase?_some s.pool i p h
  obtain ⟨u, hu, _, _, _, hmove, _⟩ := step_thread s ev i t ht
  refine ⟨u.phase, phase?_eq _ i u hu, ?_⟩
  rw [hp] at hmove
  exact hmove

/-- Backward: a worker in the phase `q` was in `q` before, or came along an edge, or has
just been started. -/
theorem step_phase_back (s : System) (ev : Event) (i : Nat) (q : Phase)
    (h : (s.step ev).pool.phase? i = some q) :
    s.pool.phase? i = some q
      ∨ (∃ p, s.pool.phase? i = some p ∧ s.Moves ev i p q)
      ∨ (s.pool.phase? i = none ∧ q = Phase.boot ∧ ev = .ctorStep) := by
  cases ht : s.pool.threads[i]? with
  | some t =>
    obtain ⟨q1, hq1, hmove⟩ := step_phase s ev i t.phase (phase?_eq s.pool i t ht)
    rw [h] at hq1
    cases hq1
    rcases hmove with hsame | hedge
    · left
      rw [phase?_eq s.pool i t ht, hsame]
    · right; left
      exact ⟨t.phase, phase?_eq s.pool i t ht, hedge⟩
  | none =>
    have hnone : s.pool.phase? i = none := by simp [AsyncSnapper.phase?, ht]
    rcases step_thread_none s ev i ht with hn | ⟨hev, _, _, _, _, _, _, hnew⟩
    · simp [AsyncSnapper.phase?, hn] at h
    · right; right
      refine ⟨hnone, ?_, hev⟩
      simp only [AsyncSnapper.phase?, hnew, Option.map_some', Option.some.injEq] at h
      exact h.symm

/-! ### The queue -/

theorem step_balanced (s : System) (ev : Event) (h : s.Balanced) : (s.step ev).Balanced := by
  unfold System.Balanced at h ⊢
  rcases step_effect s ev with ⟨hreq, _, hlog⟩ | ⟨view, _, _, hreq, _, hlog⟩
    | ⟨j, r, rest, _, _, _, hq, hreq, _, hlog⟩ | ⟨j, r, result, _, _, _, _, hreq, _, hlog⟩
  · simp only [System.submitted, System.taken, hlog, hreq] at h ⊢
    exact h
  · simp only [System.submitted, System.taken, hlog, hreq, List.filterMap_append] at h ⊢
    simp [h]
  · simp only [System.submitted, System.taken, hlog, hreq, hq, List.filterMap_append] at h ⊢
    simp [h]
  · simp only [System.submitted, System.taken, hlog, hreq, List.filterMap_append] at h ⊢
    simp [h]

theorem run_balanced (s : System) (events : List Event) (h : s.Balanced) :
    (s.run events).Balanced := by
  induction events generalizing s with
  | nil => exact h
  | cons ev rest ih => exact ih (s.step ev) (step_balanced s ev h)

/-- C4: from a process with an empty queue and an empty log, after any schedule of
constructor steps, submissions, worker steps, session and snap completions, wake-ups
and steps of `stop()`, the requests taken from the queue are a prefix of the requests
submitted, in the same order, and the number taken plus the number still queued is the
number submitted. -/
theorem queue_fifo (threads : List Thread) (running : Bool) (ctor : Ctor) (stop : Stop)
    (shared : List (Option Resolution)) (events : List Event) :
    ((System.mk { threads := threads, running := running, requests := [] } ctor stop shared
          false []).run events).taken
        <+: ((System.mk { threads := threads, running := running, requests := [] } ctor stop
          shared false []).run events).submitted
      ∧ ((System.mk { threads := threads, running := running, requests := [] } ctor stop
            shared false []).run events).submitted
          = ((System.mk { threads := threads, running := running, requests := [] } ctor stop
              shared false []).run events).taken
            ++ ((System.mk { threads := threads, running := running, requests := [] } ctor
              stop shared false []).run events).pool.requests
      ∧ ((System.mk { threads := threads, running := running, requests := [] } ctor stop
            shared false []).run events).taken.length
          + ((System.mk { threads := threads, running := running, requests := [] } ctor stop
              shared false []).run events).pool.requests.length
          = ((System.mk { threads := threads, running := running, requests := [] } ctor stop
              shared false []).run events).submitted.length := by
  have h := run_balanced
    (System.mk { threads := threads, running := running, requests := [] } ctor stop shared
      false [])
    events (by simp [System.Balanced, System.submitted, System.taken])
  unfold System.Balanced at h
  refine ⟨?_, h, ?_⟩
  · rw [h]
    exact List.prefix_append _ _
  · rw [h, List.length_append]

/-! ### Promises: who holds them, and how often they are satisfied -/

theorem step_dequeue (s : System) (i : Nat) (r : Request) (rest : List Request)
    (hab : s.aborted = false) (hph : s.pool.phase? i = some Phase.critical)
    (hq : s.pool.requests = r :: rest) :
    s.step (.advance i)
      = { s with
          pool := { s.pool with requests := rest }.setPhase i (Phase.serving r)
          log := s.log ++ [Obs.dequeued i r] } := by
  rw [step_advance s i hab]
  simp [AsyncSnapper.advance, hph, hq]

theorem step_resolve (s : System) (i : Nat) (r : Request) (result : SnapResult)
    (hab : s.aborted = false) (hph : s.pool.phase? i = some (Phase.serving r))
    (hnone : s.shared[r.promise.shared]? = some none) :
    s.step (.snapDone i result)
      = { s with
          pool := s.pool.setPhase i Phase.loopHead
          shared := s.shared.set r.promise.shared (some result.resolution)
          log := s.log ++ [Obs.resolved i r] } := by
  rw [step_snapDone s i result hab, hph]
  simp only [resolve_unsatisfied r result s.shared hnone]

theorem serving_back (s : System) (ev : Event) (i : Nat) (r : Request)
    (h : (s.step ev).pool.phase? i = some (Phase.serving r)) :
    s.pool.phase? i = some (Phase.serving r)
      ∨ (s.aborted = false ∧ s.pool.phase? i = some Phase.critical ∧ ev = .advance i
          ∧ ∃ rest, s.pool.requests = r :: rest) := by
  cases hab : s.aborted with
  | true =>
    rw [step_aborted s ev hab] at h
    exact Or.inl h
  | false =>
    rcases step_phase_back s ev i _ h with hsame | ⟨p, hp, hmove⟩ | ⟨_, hboot, _⟩
    · exact Or.inl hsame
    · right
      cases p <;> simp only [System.Moves] at hmove
      exact ⟨rfl, hp, hmove.1, hmove.2⟩
    · cases hboot

theorem resolutions_log (s1 s2 : System) (address : Nat) (h : s1.log = s2.log) :
    s1.resolutions address = s2.resolutions address := by
  simp [System.resolutions, h]

theorem resolutions_snoc (s1 s2 : System) (address : Nat) (o : Obs)
    (h : s1.log = s2.log ++ [o]) :
    s1.resolutions address
      = s2.resolutions address
        + match o with
          | .resolved _ r => if r.promise.shared = address then 1 else 0
          | _ => 0 := by
  simp only [System.resolutions, h, List.filter_append, List.length_append]
  congr 1
  cases o with
  | enqueued r => simp
  | dequeued w r => simp
  | resolved w r =>
    by_cases hr : r.promise.shared = address <;> simp [hr]

theorem step_counted (s : System) (ev : Event) (h : s.Counted) : (s.step ev).Counted := by
  intro address
  have ha := h address
  rcases step_effect s ev with ⟨_, hsh, hlog⟩ | ⟨view, _, _, _, hsh, hlog⟩
    | ⟨j, r, rest, _, _, _, _, _, hsh, hlog⟩ | ⟨j, r, result, _, _, _, hnone, _, hsh, hlog⟩
  · rw [resolutions_log _ s address hlog, hsh]
    exact ha
  · rw [resolutions_snoc _ s address _ hlog, hsh, ha]
    simp only [Nat.add_zero]
    rcases Nat.lt_trichotomy address s.shared.length with hlt | heq | hgt
    · rw [List.getElem?_append_left hlt]
    · subst heq
      simp
    · rw [List.getElem?_eq_none (l := s.shared) (by omega),
        List.getElem?_eq_none (l := s.shared ++ [none]) (by simp; omega)]
  · rw [resolutions_snoc _ s address _ hlog, hsh, ha]
    rfl
  · rw [resolutions_snoc _ s address _ hlog, hsh, ha]
    by_cases hr : r.promise.shared = address
    · subst hr
      have hlt : r.promise.shared < s.shared.length :=
        (List.getElem?_eq_some.mp hnone).1
      simp [hnone, List.getElem?_set_self hlt]
    · simp only [hr, if_false, Nat.add_zero]
      rw [List.getElem?_set_ne hr]

theorem run_counted (s : System) (events : List Event) (h : s.Counted) :
    (s.run events).Counted := by
  induction events generalizing s with
  | nil => exact h
  | cons ev rest ih => exact ih (s.step ev) (step_counted s ev h)

/-- A satisfied shared state is never written again. -/
theorem step_satisfied (s : System) (ev : Event) (address : Nat) (res : Resolution)
    (h : s.shared[address]? = some (some res)) :
    (s.step ev).shared[address]? = some (some res) := by
  rcases step_effect s ev with ⟨_, hsh, _⟩ | ⟨view, _, _, _, hsh, _⟩
    | ⟨j, r, rest, _, _, _, _, _, hsh, _⟩ | ⟨j, r, result, _, _, _, hnone, _, hsh, _⟩
  · rw [hsh]; exact h
  · rw [hsh, List.getElem?_append_left (List.getElem?_eq_some.mp h).1]
    exact h
  · rw [hsh]; exact h
  · rw [hsh]
    have hne : r.promise.shared ≠ address := by
      intro heq
      rw [heq, h] at hnone
      cases hnone
    rw [List.getElem?_set_ne hne]
    exact h

theorem run_satisfied (s : System) (events : List Event) (address : Nat) (res : Resolution)
    (h : s.shared[address]? = some (some res)) :
    (s.run events).shared[address]? = some (some res) := by
  induction events generalizing s with
  | nil => exact h
  | cons ev rest ih => exact ih (s.step ev) (step_satisfied s ev address res h)

theorem step_owned (s : System) (ev : Event) (h : s.Owned) : (s.step ev).Owned := by
  obtain ⟨h1, h2, h3, h4, h5⟩ := h
  rcases step_effect s ev with ⟨hreq, hsh, _⟩ | ⟨view, hev, _, hreq, hsh, _⟩
    | ⟨j, r, rest, hev, hab, hph, hq, hreq, hsh, _⟩
    | ⟨j, r, result, hev, hab, hph, hnone, hreq, hsh, _⟩
  · -- nothing happened to the queue and the shared states
    have back : ∀ i q, (s.step ev).pool.phase? i = some (Phase.serving q) →
        s.pool.phase? i = some (Phase.serving q) := by
      intro i q hi
      rcases serving_back s ev i q hi with hold | ⟨hab, hcrit, hev, rest, hq⟩
      · exact hold
      · exfalso
        have hstep := step_dequeue s i q rest hab hcrit hq
        rw [hev, hstep] at hreq
        simp only [setPhase_requests] at hreq
        rw [hq] at hreq
        have := congrArg List.length hreq
        simp at this
    refine ⟨?_, ?_, ?_, ?_, ?_⟩
    · intro q hq
      rw [hsh]
      exact h1 q (by rw [← hreq]; exact hq)
    · intro i q hi
      rw [hsh]
      exact h2 i q (back i q hi)
    · rw [hreq]; exact h3
    · intro i q hi q2 hq2
      exact h4 i q (back i q hi) q2 (by rw [← hreq]; exact hq2)
    · intro i k q q2 hi hk
      exact h5 i k q q2 (back i q hi) (back k q2 hk)
  · -- a submission
    have back : ∀ i q, (s.step ev).pool.phase? i = some (Phase.serving q) →
        s.pool.phase? i = some (Phase.serving q) := by
      intro i q hi
      rcases serving_back s ev i q hi with hold | ⟨_, _, hadv, _⟩
      · exact hold
      · rw [hev] at hadv
        cases hadv
    have hlt : ∀ a : Nat, s.shared[a]? = some (none : Option Resolution) →
        a < s.shared.length :=
      fun a ha => (List.getElem?_eq_some.mp ha).1
    have hkeep : ∀ a : Nat, s.shared[a]? = some (none : Option Resolution) →
        (s.shared ++ [none])[a]? = some (none : Option Resolution) := by
      intro a ha
      rw [List.getElem?_append_left (hlt a ha)]
      exact ha
    refine ⟨?_, ?_, ?_, ?_, ?_⟩
    · intro q hq
      rw [hsh]
      rw [hreq] at hq
      rcases List.mem_append.mp hq with hq | hq
      · exact hkeep _ (h1 q hq)
      · rw [List.mem_singleton] at hq
        subst hq
        simp [Request.ctor]
    · intro i q hi
      rw [hsh]
      exact hkeep _ (h2 i q (back i q hi))
    · rw [hreq, List.map_append, List.nodup_append]
      refine ⟨h3, by simp, ?_⟩
      intro a ha hb
      simp only [List.map_cons, List.map_nil, List.mem_singleton, Request.ctor] at hb
      obtain ⟨q, hq, rfl⟩ := List.mem_map.mp ha
      have := hlt _ (h1 q hq)
      omega
    · intro i q hi q2 hq2
      rw [hreq] at hq2
      rcases List.mem_append.mp hq2 with hq2 | hq2
      · exact h4 i q (back i q hi) q2 hq2
      · rw [List.mem_singleton] at hq2
        subst hq2
        have := hlt _ (h2 i q (back i q hi))
        simp only [Request.ctor]
        omega
    · intro i k q q2 hi hk
      exact h5 i k q q2 (back i q hi) (back k q2 hk)
  · -- worker `j` takes the front request `r`
    have back : ∀ i q, (s.step ev).pool.phase? i = some (Phase.serving q) →
        s.pool.phase? i = some (Phase.serving q) ∨ (i = j ∧ q = r) := by
      intro i q hi
      rcases serving_back s ev i q hi with hold | ⟨_, _, hadv, rest2, hq2⟩
      · exact Or.inl hold
      · rw [hev] at hadv
        cases hadv
        rw [hq] at hq2
        cases hq2
        exact Or.inr ⟨rfl, rfl⟩
    have hrmem : r ∈ s.pool.requests := by rw [hq]; exact List.mem_cons_self _ _
    have hsub : ∀ q, q ∈ rest → q ∈ s.pool.requests := by
      intro q hq2
      rw [hq]
      exact List.mem_cons_of_mem _ hq2
    have hnd : (r.promise.shared :: rest.map (fun q => q.promise.shared)).Nodup := by
      have := h3
      rw [hq] at this
      simpa using this
    refine ⟨?_, ?_, ?_, ?_, ?_⟩
    · intro q hq2
      rw [hsh]
      rw [hreq] at hq2
      exact h1 q (hsub q hq2)
    · intro i q hi
      rw [hsh]
      rcases back i q hi with hold | ⟨_, hqr⟩
      · exact h2 i q hold
      · rw [hqr]
        exact h1 r hrmem
    · rw [hreq]
      exact (List.nodup_cons.mp hnd).2
    · intro i q hi q2 hq2
      rw [hreq] at hq2
      rcases back i q hi with hold | ⟨_, hqr⟩
      · exact h4 i q hold q2 (hsub q2 hq2)
      · rw [hqr]
        intro heq
        apply (List.nodup_cons.mp hnd).1
        rw [← heq]
        exact List.mem_map.mpr ⟨q2, hq2, rfl⟩
    · intro i k q q2 hi hk heq
      rcases back i q hi with hold | ⟨hij, hqr⟩
      · rcases back k q2 hk with hold2 | ⟨hkj, hqr2⟩
        · exact h5 i k q q2 hold hold2 heq
        · exfalso
          rw [hqr2] at heq
          exact h4 i q hold r hrmem heq.symm
      · rcases back k q2 hk with hold2 | ⟨hkj, hqr2⟩
        · exfalso
          rw [hqr] at heq
          exact h4 k q2 hold2 r hrmem heq
        · rw [hij, hkj]
  · -- worker `j` satisfies the promise of `r`
    have hstep := step_resolve s j r result hab hph hnone
    have hjafter : (s.step ev).pool.phase? j = some Phase.loopHead := by
      rw [hev, hstep]
      exact phase?_setPhase_self s.pool j Phase.loopHead _ hph
    have back : ∀ i q, (s.step ev).pool.phase? i = some (Phase.serving q) →
        s.pool.phase? i = some (Phase.serving q) ∧ i ≠ j := by
      intro i q hi
      rcases serving_back s ev i q hi with hold | ⟨_, _, hadv, _⟩
      · refine ⟨hold, ?_⟩
        intro hij
        rw [hij, hjafter] at hi
        cases hi
      · rw [hev] at hadv
        cases hadv
    refine ⟨?_, ?_, ?_, ?_, ?_⟩
    · intro q hq2
      rw [hreq] at hq2
      rw [hsh, List.getElem?_set_ne (Ne.symm (h4 j r hph q hq2))]
      exact h1 q hq2
    · intro i q hi
      obtain ⟨hold, hij⟩ := back i q hi
      have hne : r.promise.shared ≠ q.promise.shared := by
        intro heq
        exact hij (h5 i j q r hold hph heq.symm)
      rw [hsh, List.getElem?_set_ne hne]
      exact h2 i q hold
    · rw [hreq]; exact h3
    · intro i q hi q2 hq2
      rw [hreq] at hq2
      exact h4 i q (back i q hi).1 q2 hq2
    · intro i k q q2 hi hk
      exact h5 i k q q2 (back i q hi).1 (back k q2 hk).1

theorem run_owned (s : System) (events : List Event) (h : s.Owned) :
    (s.run events).Owned := by
  induction events generalizing s with
  | nil => exact h
  | cons ev rest ih => exact ih (s.step ev) (step_owned s ev h)

theorem boot_requests (config : Config) (queryDevices : Except Exn (List Device)) :
    (System.boot config queryDevices).pool.requests = []
      ∧ (System.boot config queryDevices).shared = []
      ∧ (System.boot config queryDevices).log = []
      ∧ ∀ i r, (System.boot config queryDevices).pool.phase? i ≠ some (Phase.serving r) := by
  cases queryDevices with
  | ok devices =>
    refine ⟨rfl, rfl, rfl, ?_⟩
    intro i r h
    simp [System.boot, AsyncSnapper.phase?] at h
  | error e =>
    cases e <;> refine ⟨rfl, rfl, rfl, ?_⟩ <;> intro i r h
    all_goals
      simp [System.boot, System.stopSignal, AsyncSnapper.notify_all, AsyncSnapper.phase?] at h

theorem boot_owned (config : Config) (queryDevices : Except Exn (List Device)) :
    (System.boot config queryDevices).Owned := by
  obtain ⟨hreq, hsh, _, hph⟩ := boot_requests config queryDevices
  refine ⟨?_, ?_, ?_, ?_, ?_⟩
  · intro r hr
    rw [hreq] at hr
    cases hr
  · intro i r hi
    exact absurd hi (hph i r)
  · rw [hreq]
    exact List.nodup_nil
  · intro i r hi
    exact absurd hi (hph i r)
  · intro i j r q hi
    exact absurd hi (hph i r)

theorem boot_counted (config : Config) (queryDevices : Except Exn (List Device)) :
    (System.boot config queryDevices).Counted := by
  obtain ⟨_, hsh, hlog, _⟩ := boot_requests config queryDevices
  intro address
  simp [System.resolutions, hlog, hsh]

/-- C2: in every state the process reaches from the start of the constructor, by any
schedule: a worker in the critical section with a request at the front of the queue takes
exactly that request, whose promise is unsatisfied; when `snap` finishes for a request
being served, the shared state of its promise, unsatisfied and never satisfied before,
holds the Snapshot if `snap` returned and the exception if it threw, the worker is back
at its loop condition (it has not ended, nor has the process) and the queue is
untouched; from then on, whatever happens, that shared state stays as it is and the
promise has been satisfied exactly once; and at any time every promise has been
satisfied once if its shared state is satisfied and never otherwise. -/
theorem worker_resolves_once (config : Config) (queryDevices : Except Exn (List Device))
    (events : List Event) (s : System) (i : Nat)
    (hs : s = (System.boot config queryDevices).run events) :
    (s.aborted = false → ∀ front rest, s.pool.phase? i = some Phase.critical →
        s.pool.requests = front :: rest →
        s.shared[front.promise.shared]? = some none
          ∧ s.step (.advance i)
            = { s with
                pool := { s.pool with requests := rest }.setPhase i (Phase.serving front)
                log := s.log ++ [Obs.dequeued i front] })
      ∧ (s.aborted = false → ∀ request result,
          s.pool.phase? i = some (Phase.serving request) →
          s.shared[request.promise.shared]? = some none
            ∧ s.resolutions request.promise.shared = 0
            ∧ (s.step (.snapDone i result)).shared[request.promise.shared]?
              = some (some result.resolution)
            ∧ (∀ address, address ≠ request.promise.shared →
                (s.step (.snapDone i result)).shared[address]? = s.shared[address]?)
            ∧ (s.step (.snapDone i result)).resolutions request.promise.shared = 1
            ∧ (s.step (.snapDone i result)).pool.phase? i = some Phase.loopHead
            ∧ (s.step (.snapDone i result)).pool.requests = s.pool.requests
            ∧ (s.step (.snapDone i result)).aborted = false
            ∧ ∀ more,
                ((s.step (.snapDone i result)).run more).shared[request.promise.shared]?
                  = some (some result.resolution)
                ∧ ((s.step (.snapDone i result)).run more).resolutions
                    request.promise.shared = 1)
      ∧ ∀ address, s.resolutions address
          = match s.shared[address]? with
            | some (some _) => 1
            | _ => 0 := by
  have howned : s.Owned := by
    rw [hs]
    exact run_owned _ events (boot_owned config queryDevices)
  have hcounted : s.Counted := by
    rw [hs]
    exact run_counted _ events (boot_counted config queryDevices)
  refine ⟨?_, ?_, hcounted⟩
  · intro hlive front rest hph hq
    exact ⟨howned.1 front (by rw [hq]; exact List.mem_cons_self _ _),
      step_dequeue s i front rest hlive hph hq⟩
  · intro hlive request result hph
    have hnone := howned.2.1 i request hph
    have hstep := step_resolve s i request result hlive hph hnone
    have hlt : request.promise.shared < s.shared.length :=
      (List.getElem?_eq_some.mp hnone).1
    have hafter : (s.step (.snapDone i result)).shared[request.promise.shared]?
        = some (some result.resolution) := by
      rw [hstep]
      exact List.getElem?_set_self hlt
    have hcount : ∀ t : System, t.Counted →
        t.shared[request.promise.shared]? = some (some result.resolution) →
        t.resolutions request.promise.shared = 1 := by
      intro t ht hsat
      rw [ht request.promise.shared, hsat]
    refine ⟨hnone, ?_, hafter, ?_, ?_, ?_, ?_, ?_, ?_⟩
    · rw [hcounted request.promise.shared, hnone]
    · intro address hne
      rw [hstep]
      exact List.getElem?_set_ne (Ne.symm hne)
    · exact hcount _ (step_counted s _ hcounted) hafter
    · rw [hstep]
      exact phase?_setPhase_self s.pool i Phase.loopHead _ hph
    · rw [hstep]
      rfl
    · rw [hstep]
      exact hlive
    · intro more
      have hsat := run_satisfied _ more _ _ hafter
      exact ⟨hsat, hcount _ (run_counted _ more (step_counted s _ hcounted)) hsat⟩

theorem worker_resolves_once_witness :
    ((((System.boot sampleConfig twoDevices).run
            [.ctorStep, .ctorStep, .ctorStep, .submit sampleView, .sessionReady 0,
              .advance 0]).step (.advance 0)).pool.phase? 0
        = some (Phase.serving sampleRequest))
      ∧ (((System.boot sampleConfig twoDevices).run
            [.ctorStep, .ctorStep, .ctorStep, .submit sampleView, .sessionReady 0,
              .advance 0, .advance 0]).step
            (.snapDone 0 (.threw (Exn.engine 1)))).shared[sampleRequest.promise.shared]?
          = some (some (Resolution.exception (Exn.engine 1)))
      ∧ (((System.boot sampleConfig twoDevices).run
            [.ctorStep, .ctorStep, .ctorStep, .submit sampleView, .sessionReady 0,
              .advance 0, .advance 0]).step
            (.snapDone 0 (.threw (Exn.engine 1)))).resolutions sampleRequest.promise.shared
          = 1
      ∧ (((System.boot sampleConfig twoDevices).run
            [.ctorStep, .ctorStep, .ctorStep, .submit sampleView, .sessionReady 0,
              .advance 0, .advance 0]).step
            (.snapDone 0 (.threw (Exn.engine 1)))).pool.phase? 0
          = some Phase.loopHead :=
  ⟨(congrArg (fun t : System => t.pool.phase? 0)
      ((worker_resolves_once sampleConfig twoDevices
        [.ctorStep, .ctorStep, .ctorStep, .submit sampleView, .sessionReady 0, .advance 0]
        _ 0 rfl).1 (by decide) sampleRequest [] (by decide) (by decide)).2).trans (by decide),
    ((worker_resolves_once sampleConfig twoDevices
        [.ctorStep, .ctorStep, .ctorStep, .submit sampleView, .sessionReady 0, .advance 0,
          .advance 0]
        _ 0 rfl).2.1 (by decide) sampleRequest (.threw (Exn.engine 1)) (by decide)).2.2.1,
    ((worker_resolves_once sampleConfig twoDevices
        [.ctorStep, .ctorStep, .ctorStep, .submit sampleView, .sessionReady 0, .advance 0,
          .advance 0]
        _ 0 rfl).2.1 (by decide) sampleRequest (.threw (Exn.engine 1))
        (by decide)).2.2.2.2.1,
    ((worker_resolves_once sampleConfig twoDevices
        [.ctorStep, .ctorStep, .ctorStep, .submit sampleView, .sessionReady 0, .advance 0,
          .advance 0]
        _ 0 rfl).2.1 (by decide) sampleRequest (.threw (Exn.engine 1))
        (by decide)).2.2.2.2.2.1⟩

/-! ### Where a worker takes requests, and where it stops -/

theorem step_taken (s : System) (ev : Event) :
    (s.step ev).taken = s.taken
      ∨ ∃ j r, ev = .advance j ∧ s.pool.phase? j = some Phase.critical
          ∧ (s.step ev).taken = s.taken ++ [r] := by
  rcases step_effect s ev with ⟨_, _, hlog⟩ | ⟨view, _, _, _, _, hlog⟩
    | ⟨j, r, rest, hev, _, hph, _, _, _, hlog⟩ | ⟨j, r, result, _, _, _, _, _, _, hlog⟩
  · left
    simp [System.taken, hlog]
  · left
    simp [System.taken, hlog, List.filterMap_append]
  · right
    exact ⟨j, r, hev, hph, by simp [System.taken, hlog, List.filterMap_append]⟩
  · left
    simp [System.taken, hlog, List.filterMap_append]

theorem step_enters_critical (s : System) (ev : Event) (i : Nat)
    (h : (s.step ev).pool.phase? i = some Phase.critical) :
    s.pool.phase? i = some Phase.critical
      ∨ (ev = .advance i ∧ s.pool.phase? i = some Phase.loopHead ∧ s.pool.running = true) := by
  rcases step_phase_back s ev i _ h with hsame | ⟨p, hp, hmove⟩ | ⟨_, hboot, _⟩
  · exact Or.inl hsame
  · right
    cases p <;> simp only [System.Moves] at hmove
    exact ⟨hmove.1, hp, hmove.2⟩
  · cases hboot

theorem step_exited_stays (s : System) (ev : Event) (i : Nat)
    (h : s.pool.phase? i = some Phase.exited) :
    (s.step ev).pool.phase? i = some Phase.exited := by
  obtain ⟨q, hq, hmove⟩ := step_phase s ev i _ h
  rcases hmove with hsame | hedge
  · rw [hq, hsame]
  · cases q <;> simp only [System.Moves] at hedge

theorem step_leave (s : System) (i : Nat) (hab : s.aborted = false)
    (hph : s.pool.phase? i = some Phase.loopHead) (hrun : s.pool.running = false) :
    s.step (.advance i) = { s with pool := s.pool.setPhase i Phase.exited } := by
  rw [step_advance s i hab]
  simp [AsyncSnapper.advance, hph, hrun]

/-- C10: a worker that evaluates its loop condition while `running_` is false returns
without touching the queue, empty or not; a request leaves the queue only through a
worker in the critical section, which a worker enters only from the loop condition with
`running_` true; and a worker that has returned never comes back. As the constructor
sets `running_` only after spawning, there is such a schedule: for the devices 7 and 8
the worker of device 7 finishes its bootstrap and tests the flag before the constructor
sets it, and the constructed pool has two threads, of which one serves nobody. -/
theorem worker_needs_running (s : System) (ev : Event) (i : Nat) :
    (s.aborted = false → s.pool.phase? i = some Phase.loopHead → s.pool.running = false →
        s.step (.advance i) = { s with pool := s.pool.setPhase i Phase.exited })
      ∧ ((s.step ev).taken = s.taken
          ∨ ∃ j r, ev = .advance j ∧ s.pool.phase? j = some Phase.critical
              ∧ (s.step ev).taken = s.taken ++ [r])
      ∧ ((s.step ev).pool.phase? i = some Phase.critical →
          s.pool.phase? i = some Phase.critical
            ∨ (ev = .advance i ∧ s.pool.phase? i = some Phase.loopHead
                ∧ s.pool.running = true))
      ∧ (s.pool.phase? i = some Phase.exited →
          (s.step ev).pool.phase? i = some Phase.exited)
      ∧ (System.boot sampleConfig twoDevices).run [.ctorStep, .ctorStep]
          = { pool := spawnedPool, ctor := Ctor.spawning sampleConfig 2 [], stop := Stop.idle
              shared := [], aborted := false, log := [] }
      ∧ (System.boot sampleConfig twoDevices).run
            [.ctorStep, .ctorStep, .sessionReady 0, .advance 0, .ctorStep]
          = { pool := earlyExitPool, ctor := Ctor.done, stop := Stop.idle
              shared := [], aborted := false, log := [] }
      ∧ earlyExitPool.running = true
      ∧ earlyExitPool.threads.length = 2
      ∧ (earlyExitPool.threads.filter (fun t => t.phase ≠ Phase.exited)).length = 1 := by
  exact ⟨step_leave s i, step_taken s ev, step_enters_critical s ev i,
    step_exited_stays s ev i, by decide, by decide, rfl, rfl, by decide⟩

theorem worker_needs_running_witness :
    ((System.boot sampleConfig twoDevices).run
          [.ctorStep, .ctorStep, .submit sampleView, .sessionReady 0]).pool.requests
        = [sampleRequest]
      ∧ ((System.boot sampleConfig twoDevices).run
            [.ctorStep, .ctorStep, .submit sampleView, .sessionReady 0]).step (.advance 0)
        = { (System.boot sampleConfig twoDevices).run
              [.ctorStep, .ctorStep, .submit sampleView, .sessionReady 0] with
            pool :=
              ((System.boot sampleConfig twoDevices).run
                [.ctorStep, .ctorStep, .submit sampleView,
                  .sessionReady 0]).pool.setPhase 0 Phase.exited }
      ∧ (((System.boot sampleConfig twoDevices).run
            [.ctorStep, .ctorStep, .sessionReady 0, .advance 0, .ctorStep,
              .submit sampleView, .advance 0]).pool.phase? 0
          = some Phase.exited) :=
  ⟨by decide,
    (worker_needs_running
      ((System.boot sampleConfig twoDevices).run
        [.ctorStep, .ctorStep, .submit sampleView, .sessionReady 0])
      (.advance 0) 0).1 (by decide) (by decide) (by decide),
    (worker_needs_running
      ((System.boot sampleConfig twoDevices).run
        [.ctorStep, .ctorStep, .sessionReady 0, .advance 0, .ctorStep, .submit sampleView])
      (.advance 0) 0).2.2.2.1 (by decide)⟩

/-! ### The constructor -/

theorem map_eq_of_pointwise {β : Type} (f : Thread → β) (l l2 : List Thread)
    (hsome : ∀ (i : Nat) (t : Thread), l[i]? = some t → ∃ u, l2[i]? = some u ∧ f u = f t)
    (hnone : ∀ i : Nat, l[i]? = none → l2[i]? = none) :
    l2.map f = l.map f := by
  apply List.ext_getElem?
  intro i
  simp only [List.getElem?_map]
  cases h : l[i]? with
  | none => rw [hnone i h]
  | some t =>
    obtain ⟨u, hu, hf⟩ := hsome i t h
    rw [hu]
    simp [hf]

/-- A transition other than the start of a worker keeps the devices and the
configurations of `threads_`. -/
theorem step_threads_map (s : System) (ev : Event)
    (h : ∀ config threadId device rest,
      ev = .ctorStep → s.ctor ≠ Ctor.spawning config threadId (device :: rest)) :
    (s.step ev).pool.threads.map (fun t => t.device) = s.pool.threads.map (fun t => t.device)
      ∧ (s.step ev).pool.threads.map (fun t => t.config)
        = s.pool.threads.map (fun t => t.config) := by
  have hnone : ∀ i : Nat, s.pool.threads[i]? = none →
      (s.step ev).pool.threads[i]? = none := by
    intro i hi
    rcases step_thread_none s ev i hi with hn | ⟨hev, _, config, threadId, device, rest, hc, _⟩
    · exact hn
    · exact absurd hc (h config threadId device rest hev)
  constructor
  · apply map_eq_of_pointwise _ _ _ _ hnone
    intro i t ht
    obtain ⟨u, hu, _, _, hd, _⟩ := step_thread s ev i t ht
    exact ⟨u, hu, hd⟩
  · apply map_eq_of_pointwise _ _ _ _ hnone
    intro i t ht
    obtain ⟨u, hu, _, hc, _⟩ := step_thread s ev i t ht
    exact ⟨u, hu, hc⟩

theorem step_ctor (s : System) (ev : Event) :
    (s.step ev).ctor = s.ctor ∨ ev = .ctorStep ∨ ev = .threadCreationFails := by
  cases hab : s.aborted with
  | true => rw [step_aborted s ev hab]; exact Or.inl rfl
  | false =>
    cases ev with
    | ctorStep => exact Or.inr (Or.inl rfl)
    | threadCreationFails => exact Or.inr (Or.inr rfl)
    | submit view => rw [step_submit s view hab]; exact Or.inl rfl
    | sessionReady i => rw [step_sessionReady s i hab]; left; split <;> rfl
    | sessionFailed i e => rw [step_sessionFailed s i e hab]; left; split <;> rfl
    | advance i => rw [step_advance s i hab]; exact Or.inl rfl
    | snapDone i result =>
      rw [step_snapDone s i result hab]
      left
      split
      · split <;> rfl
      · rfl
    | spuriousWake i => rw [step_spuriousWake s i hab]; left; split <;> rfl
    | stopCall => rw [step_stopCall s hab]; left; split <;> rfl
    | stopJoin =>
      rw [step_stopJoin s hab]
      left
      split
      · split
        · rfl
        · split
          · rfl
          · split <;> rfl
      · rfl

theorem configs_of_map (config : Config) (l : List Thread) :
    (∀ t ∈ l, t.config = config) ↔ l.map (fun t => t.config) = List.replicate l.length config := by
  induction l with
  | nil => simp
  | cons t rest ih =>
    simp only [List.mem_cons, forall_eq_or_imp, List.map_cons, List.length_cons,
      List.replicate_succ, List.cons.injEq, ih]

theorem configs_transfer (config : Config) (l l2 : List Thread)
    (hmap : l2.map (fun t => t.config) = l.map (fun t => t.config))
    (h : ∀ t ∈ l, t.config = config) : ∀ t ∈ l2, t.config = config := by
  intro t ht
  have hm : t.config ∈ l2.map (fun t => t.config) := List.mem_map.mpr ⟨t, ht, rfl⟩
  rw [hmap] at hm
  obtain ⟨u, hu, hcu⟩ := List.mem_map.mp hm
  rw [← hcu]
  exact h u hu

theorem step_spawned (config : Config) (devices : List Device) (s : System) (ev : Event)
    (h : s.Spawned config devices) : (s.step ev).Spawned config devices := by
  obtain ⟨hcfg, hctor⟩ := h
  cases hab : s.aborted with
  | true => rw [step_aborted s ev hab]; exact ⟨hcfg, hctor⟩
  | false =>
    by_cases hev : ev = .ctorStep
    · subst hev
      cases hc : s.ctor with
      | spawning cfg threadId rest =>
        rw [hc] at hctor
        cases rest with
        | nil =>
          have hstep : s.step .ctorStep
              = { s with pool := { s.pool with running := true }, ctor := Ctor.done } := by
            rw [step_ctorStep s hab, hc]
          rw [hstep]
          exact ⟨hcfg, by simpa using hctor.2⟩
        | cons device rest =>
          have hstep : s.step .ctorStep
              = { s with
                  pool := { s.pool with threads := s.pool.threads ++
                    [{ threadId := threadId, config := cfg, device := device
                       phase := Phase.boot, joinable := true }] }
                  ctor := Ctor.spawning cfg (threadId + 1) rest } := by
            rw [step_ctorStep s hab, hc]
          rw [hstep]
          constructor
          · intro t ht
            simp only [List.mem_append, List.mem_singleton] at ht
            rcases ht with ht | ht
            · exact hcfg t ht
            · rw [ht]
              exact hctor.1
          · refine ⟨hctor.1, ?_⟩
            simp only [List.map_append, List.map_cons, List.map_nil, List.append_assoc,
              List.singleton_append]
            exact hctor.2
      | unwinding e =>
        have hstep : (s.step .ctorStep).pool = s.pool
            ∧ ((s.step .ctorStep).ctor = Ctor.unwinding e
                ∨ (s.step .ctorStep).ctor = Ctor.failed e) := by
          rw [step_ctorStep s hab, hc]
          simp only
          split
          · exact ⟨rfl, Or.inr rfl⟩
          · exact ⟨rfl, Or.inl rfl⟩
          · exact ⟨rfl, Or.inl hc⟩
        refine ⟨by rw [hstep.1]; exact hcfg, ?_⟩
        rcases hstep.2 with h2 | h2 <;> rw [h2] <;> trivial
      | done =>
        have hstep : s.step .ctorStep = s := by rw [step_ctorStep s hab, hc]
        rw [hstep]
        exact ⟨hcfg, hctor⟩
      | failed e =>
        have hstep : s.step .ctorStep = s := by rw [step_ctorStep s hab, hc]
        rw [hstep]
        exact ⟨hcfg, hctor⟩
    · have hmaps := step_threads_map s ev (fun _ _ _ _ h => absurd h hev)
      have hcfg2 := configs_transfer config _ _ hmaps.2 hcfg
      refine ⟨hcfg2, ?_⟩
      rcases step_ctor s ev with hsame | hc | hc
      · rw [hsame, hmaps.1]
        exact hctor
      · exact absurd hc hev
      · subst hc
        cases hc : s.ctor with
        | spawning cfg threadId rest =>
          cases rest with
          | nil =>
            have hstep : s.step .threadCreationFails = s := by
              rw [step_threadCreationFails s hab, hc]
            rw [hstep]
            exact hctor
          | cons device rest =>
            have hstep : (s.step .threadCreationFails).ctor
                = Ctor.unwinding Exn.resourceUnavailable := by
              rw [step_threadCreationFails s hab, hc]
            rw [hstep]
            trivial
        | unwinding e =>
          have hstep : s.step .threadCreationFails = s := by
            rw [step_threadCreationFails s hab, hc]
          rw [hstep]
          exact hctor
        | done =>
          have hstep : s.step .threadCreationFails = s := by
            rw [step_threadCreationFails s hab, hc]
          rw [hstep]
          exact hctor
        | failed e =>
          have hstep : s.step .threadCreationFails = s := by
            rw [step_threadCreationFails s hab, hc]
          rw [hstep]
          exact hctor

theorem run_spawned (config : Config) (devices : List Device) (s : System)
    (events : List Event) (h : s.Spawned config devices) :
    (s.run events).Spawned config devices := by
  induction events generalizing s with
  | nil => exact h
  | cons ev rest ih => exact ih (s.step ev) (step_spawned config devices s ev h)

theorem boot_spawned (config : Config) (devices : List Device) :
    (System.boot config (.ok devices)).Spawned config devices := by
  refine ⟨?_, ?_⟩
  · intro t ht
    cases ht
  · show _ ∧ _
    exact ⟨rfl, rfl⟩

theorem boot_spawned_default (config : Config) :
    (System.boot config (.error Exn.missingExtension)).Spawned config [Device.default] := by
  refine ⟨?_, ?_⟩
  · intro t ht
    cases ht
  · show _ ∧ _
    exact ⟨rfl, rfl⟩

/-- The constructor's own steps, uninterrupted, from inside the loop of lines 394-397. -/
theorem run_spawn_all (rest : List Device) (s : System) (config : Config) (threadId : Int)
    (hab : s.aborted = false) (hc : s.ctor = Ctor.spawning config threadId rest) :
    s.run (List.replicate (rest.length + 1) .ctorStep)
      = { s with
          pool :=
            { s.pool with
              threads := s.pool.threads ++ rest.mapIdx (fun k device =>
                { threadId := threadId + k, config := config, device := device
                  phase := Phase.boot, joinable := true })
              running := true }
          ctor := Ctor.done } := by
  induction rest generalizing s threadId with
  | nil =>
    simp only [List.length_nil, Nat.zero_add, List.replicate_one, System.run, List.foldl_cons,
      List.foldl_nil]
    rw [step_ctorStep s hab, hc]
    simp
  | cons device rest ih =>
    rw [List.length_cons, List.replicate_succ, run_cons, step_ctorStep s hab, hc]
    simp only
    have hnext := ih
      { s with
        pool := { s.pool with threads := s.pool.threads ++
          [{ threadId := threadId, config := config, device := device
             phase := Phase.boot, joinable := true }] }
        ctor := Ctor.spawning config (threadId + 1) rest }
      (threadId + 1) hab rfl
    rw [hnext]
    have hfun : ∀ k : Nat, threadId + 1 + (k : Int) = threadId + ((k : Int) + 1) := by
      intro k
      ring
    simp [List.mapIdx_cons, hfun]

/-- C5: whatever the workers, the callers and the schedule do meanwhile: once the
constructor has returned after an enumeration of `devices`, `threads_` has exactly one
thread per device, the i-th bound to the i-th device, each with `config`; after
`MissingExtension` it has exactly one thread, bound to the default (empty) device. And
the constructor does return: run on its own it ends with these threads, each about to
build its session, `running_` true and the queue empty. -/
theorem ctor_workers (config : Config) (devices : List Device) (events : List Event) :
    (((System.boot config (.ok devices)).run events).ctor = Ctor.done →
        ((System.boot config (.ok devices)).run events).pool.threads.length = devices.length
          ∧ ((System.boot config (.ok devices)).run events).pool.threads.map
              (fun t => t.device) = devices
          ∧ ∀ t ∈ ((System.boot config (.ok devices)).run events).pool.threads,
              t.config = config)
      ∧ (((System.boot config (.error Exn.missingExtension)).run events).ctor = Ctor.done →
          ((System.boot config (.error Exn.missingExtension)).run events).pool.threads.map
              (fun t => t.device) = [Device.default]
            ∧ ∀ t ∈ ((System.boot config (.error Exn.missingExtension)).run
                events).pool.threads, t.config = config)
      ∧ (System.boot config (.ok devices)).run (List.replicate (devices.length + 1) .ctorStep)
          = { pool :=
                { threads := devices.mapIdx (fun k device =>
                    { threadId := (if devices.length = 1 then -1 else 0) + k, config := config
                      device := device, phase := Phase.boot, joinable := true })
                  running := true
                  requests := [] }
              ctor := Ctor.done, stop := Stop.idle, shared := [], aborted := false, log := [] }
      ∧ (System.boot config (.error Exn.missingExtension)).run [.ctorStep, .ctorStep]
          = { pool :=
                { threads :=
                    [{ threadId := -1, config := config, device := Device.default
                       phase := Phase.boot, joinable := true }]
                  running := true
                  requests := [] }
              ctor := Ctor.done, stop := Stop.idle, shared := [], aborted := false
              log := [] } := by
  refine ⟨?_, ?_, ?_, rfl⟩
  · intro hdone
    obtain ⟨hcfg, hctor⟩ := run_spawned config devices _ events (boot_spawned config devices)
    rw [hdone] at hctor
    refine ⟨?_, hctor, hcfg⟩
    have := congrArg List.length hctor
    simpa using this
  · intro hdone
    obtain ⟨hcfg, hctor⟩ := run_spawned config _ _ events (boot_spawned_default config)
    rw [hdone] at hctor
    exact ⟨hctor, hcfg⟩
  · rw [run_spawn_all devices _ config _ rfl rfl]
    simp [System.boot]

theorem ctor_workers_witness :
    ((System.boot sampleConfig twoDevices).run
          [.ctorStep, .sessionReady 0, .ctorStep, .advance 0, .ctorStep]).pool.threads.map
            (fun t => t.device)
        = [{ handle := some 7 }, { handle := some 8 }]
      ∧ ((System.boot sampleConfig (.error Exn.missingExtension)).run
          [.ctorStep, .sessionReady 0, .ctorStep]).pool.threads.map (fun t => t.device)
        = [Device.default] :=
  ⟨((ctor_workers sampleConfig [{ handle := some 7 }, { handle := some 8 }]
      [.ctorStep, .sessionReady 0, .ctorStep, .advance 0, .ctorStep]).1 (by decide)).2.1,
    ((ctor_workers sampleConfig []
      [.ctorStep, .sessionReady 0, .ctorStep]).2.1 (by decide)).1⟩

/-! ### Stopping the pool -/

theorem setPhase_setPhase (self : AsyncSnapper) (i : Nat) (a b : Phase) :
    (self.setPhase i a).setPhase i b = self.setPhase i b := by
  simp only [AsyncSnapper.setPhase, List.modify_modify_eq]
  rfl

theorem setPhase_same (self : AsyncSnapper) (i : Nat) (t : Thread)
    (h : self.threads[i]? = some t) : self.setPhase i t.phase = self := by
  have hthreads : (self.setPhase i t.phase).threads = self.threads := by
    apply List.ext_getElem?
    intro k
    rw [getElem?_setPhase]
    by_cases hik : i = k
    · subst hik
      simp [h]
    · simp [hik]
  cases self with
  | mk threads running requests =>
    simp only [AsyncSnapper.setPhase] at hthreads ⊢
    rw [hthreads]

theorem step_sessionReady_skip (s : System) (j : Nat) (p : Phase) (hab : s.aborted = false)
    (hph : s.pool.phase? j = some p) (hne : p ≠ Phase.boot) :
    s.step (.sessionReady j) = s := by
  rw [step_sessionReady s j hab, hph]
  cases p <;> first | rfl | exact absurd rfl hne

theorem step_snapDone_skip (s : System) (j : Nat) (p : Phase) (result : SnapResult)
    (hab : s.aborted = false) (hph : s.pool.phase? j = some p)
    (hne : ∀ r, p ≠ Phase.serving r) : s.step (.snapDone j result) = s := by
  rw [step_snapDone s j result hab, hph]
  cases p <;> first | rfl | exact absurd rfl (hne _)

theorem step_advance_skip (s : System) (j : Nat) (p : Phase) (hab : s.aborted = false)
    (hph : s.pool.phase? j = some p)
    (hp : p = Phase.boot ∨ p = Phase.waiting ∨ p = Phase.exited ∨ ∃ r, p = Phase.serving r) :
    s.step (.advance j) = s := by
  rw [step_advance s j hab]
  have hadv : s.pool.advance j = (s.pool, []) := by
    unfold AsyncSnapper.advance
    rw [hph]
    rcases hp with h | h | h | ⟨r, h⟩ <;> subst h <;> rfl
  rw [hadv]
  simp

theorem step_sessionReady_boot (s : System) (j : Nat) (hab : s.aborted = false)
    (hph : s.pool.phase? j = some Phase.boot) :
    s.step (.sessionReady j) = { s with pool := s.pool.setPhase j Phase.loopHead } := by
  rw [step_sessionReady s j hab, hph]

theorem step_leave_critical (s : System) (j : Nat) (hab : s.aborted = false)
    (hph : s.pool.phase? j = some Phase.critical) (hq : s.pool.requests = [])
    (hrun : s.pool.running = false) :
    s.step (.advance j) = { s with pool := s.pool.setPhase j Phase.exited } := by
  rw [step_advance s j hab]
  simp [AsyncSnapper.advance, hph, hq, hrun]

/-- With `running_` false, a worker that is neither about to wait nor waiting returns
once its session is built and its `snap`, if any, has finished. -/
theorem worker_runs_out (s : System) (j : Nat) (t : Thread) (result : SnapResult)
    (hab : s.aborted = false) (hrun : s.pool.running = false) (hown : s.Owned)
    (ht : s.pool.threads[j]? = some t) (hpw : t.phase ≠ Phase.preWait)
    (hw : t.phase ≠ Phase.waiting) :
    (s.run [.sessionReady j, .advance j, .snapDone j result, .advance j]).pool.threads
        = (s.pool.setPhase j Phase.exited).threads
      ∧ (s.run [.sessionReady j, .advance j, .snapDone j result, .advance j]).pool.running
        = false
      ∧ (s.run [.sessionReady j, .advance j, .snapDone j result, .advance j]).stop = s.stop
      ∧ (s.run [.sessionReady j, .advance j, .snapDone j result, .advance j]).ctor = s.ctor
      ∧ (s.run [.sessionReady j, .advance j, .snapDone j result, .advance j]).aborted
        = false := by
  have hphase := phase?_eq s.pool j t ht
  simp only [System.run, List.foldl_cons, List.foldl_nil]
  cases hp : t.phase with
  | boot =>
    rw [hp] at hphase
    rw [step_sessionReady_boot s j hab hphase]
    have h1 : ({ s with pool := s.pool.setPhase j Phase.loopHead } : System).pool.phase? j
        = some Phase.loopHead := phase?_setPhase_self s.pool j _ _ hphase
    rw [step_leave _ j (by exact hab) h1 (by exact hrun)]
    have h2 : ({ s with pool := (s.pool.setPhase j Phase.loopHead).setPhase j Phase.exited }
        : System).pool.phase? j = some Phase.exited :=
      phase?_setPhase_self _ j _ _ h1
    rw [step_snapDone_skip _ j _ result (by exact hab) h2 (fun r hr => by cases hr),
      step_advance_skip _ j _ (by exact hab) h2 (Or.inr (Or.inr (Or.inl rfl)))]
    exact ⟨by rw [setPhase_setPhase], hrun, rfl, rfl, hab⟩
  | loopHead =>
    rw [hp] at hphase
    rw [step_sessionReady_skip s j _ hab hphase (by intro h; cases h),
      step_leave s j hab hphase hrun]
    have h2 : ({ s with pool := s.pool.setPhase j Phase.exited } : System).pool.phase? j
        = some Phase.exited := phase?_setPhase_self s.pool j _ _ hphase
    rw [step_snapDone_skip _ j _ result (by exact hab) h2 (fun r hr => by cases hr),
      step_advance_skip _ j _ (by exact hab) h2 (Or.inr (Or.inr (Or.inl rfl)))]
    exact ⟨rfl, hrun, rfl, rfl, hab⟩
  | critical =>
    rw [hp] at hphase
    rw [step_sessionReady_skip s j _ hab hphase (by intro h; cases h)]
    cases hq : s.pool.requests with
    | nil =>
      rw [step_leave_critical s j hab hphase hq hrun]
      have h2 : ({ s with pool := s.pool.setPhase j Phase.exited } : System).pool.phase? j
          = some Phase.exited := phase?_setPhase_self s.pool j _ _ hphase
      rw [step_snapDone_skip _ j _ result (by exact hab) h2 (fun r hr => by cases hr),
        step_advance_skip _ j _ (by exact hab) h2 (Or.inr (Or.inr (Or.inl rfl)))]
      exact ⟨rfl, hrun, rfl, rfl, hab⟩
    | cons r rest =>
      have hnone : s.shared[r.promise.shared]? = some none :=
        hown.1 r (by rw [hq]; exact List.mem_cons_self _ _)
      rw [step_dequeue s j r rest hab hphase hq]
      have h1 : ({ s with
          pool := { s.pool with requests := rest }.setPhase j (Phase.serving r)
          log := s.log ++ [Obs.dequeued j r] } : System).pool.phase? j
          = some (Phase.serving r) :=
        phase?_setPhase_self { s.pool with requests := rest } j _ _ hphase
      rw [step_resolve _ j r result (by exact hab) h1 (by exact hnone)]
      have h2 : ({ s with
          pool := ({ s.pool with requests := rest }.setPhase j (Phase.serving r)).setPhase j
            Phase.loopHead
          shared := s.shared.set r.promise.shared (some result.resolution)
          log := s.log ++ [Obs.dequeued j r] ++ [Obs.resolved j r] } : System).pool.phase? j
          = some Phase.loopHead :=
        phase?_setPhase_self _ j _ _ h1
      rw [step_leave _ j (by exact hab) h2 (by exact hrun)]
      exact ⟨by simp only [setPhase_setPhase]; rfl, hrun, rfl, rfl, hab⟩
  | preWait => exact absurd hp hpw
  | waiting => exact absurd hp hw
  | serving r =>
    rw [hp] at hphase
    have hnone : s.shared[r.promise.shared]? = some none := hown.2.1 j r hphase
    rw [step_sessionReady_skip s j _ hab hphase (by intro h; cases h),
      step_advance_skip s j _ hab hphase (Or.inr (Or.inr (Or.inr ⟨r, rfl⟩))),
      step_resolve s j r result hab hphase hnone]
    have h2 : ({ s with
        pool := s.pool.setPhase j Phase.loopHead
        shared := s.shared.set r.promise.shared (some result.resolution)
        log := s.log ++ [Obs.resolved j r] } : System).pool.phase? j
        = some Phase.loopHead :=
      phase?_setPhase_self _ j _ _ hphase
    rw [step_leave _ j (by exact hab) h2 (by exact hrun)]
    exact ⟨by simp only [setPhase_setPhase], hrun, rfl, rfl, hab⟩
  | exited =>
    rw [hp] at hphase
    rw [step_sessionReady_skip s j _ hab hphase (by intro h; cases h),
      step_advance_skip s j _ hab hphase (Or.inr (Or.inr (Or.inl rfl))),
      step_snapDone_skip s j _ result hab hphase (fun r hr => by cases hr),
      step_advance_skip s j _ hab hphase (Or.inr (Or.inr (Or.inl rfl)))]
    refine ⟨?_, hrun, rfl, rfl, hab⟩
    have := setPhase_same s.pool j t ht
    rw [hp] at this
    rw [this]

theorem modify_joined (l : List Thread) (j : Nat) :
    List.modify (fun t => { t with joinable := false }) j
        (List.modify (fun t => { t with phase := Phase.exited }) j l)
      = List.modify Thread.joined j l := by
  rw [List.modify_modify_eq]
  rfl

/-- With `running_` false, the `join` of a joinable thread whose worker is neither about
to wait nor waiting returns, once the session is built and the `snap` has finished. -/
theorem join_one (s : System) (j : Nat) (t : Thread) (outcome : Nat → SnapResult)
    (hab : s.aborted = false) (hrun : s.pool.running = false) (hown : s.Owned)
    (hstop : s.stop = Stop.joining j) (ht : s.pool.threads[j]? = some t)
    (hj : t.joinable = true) (hpw : t.phase ≠ Phase.preWait) (hw : t.phase ≠ Phase.waiting) :
    (s.run (joinSchedule outcome j)).pool.threads = s.pool.threads.modify Thread.joined j
      ∧ (s.run (joinSchedule outcome j)).pool.running = false
      ∧ (s.run (joinSchedule outcome j)).stop = Stop.enter (j + 1) s.pool.threads.length
      ∧ (s.run (joinSchedule outcome j)).ctor = s.ctor
      ∧ (s.run (joinSchedule outcome j)).aborted = false
      ∧ (s.run (joinSchedule outcome j)).Owned := by
  have hsplit : joinSchedule outcome j
      = [.sessionReady j, .advance j, .snapDone j (outcome j), .advance j] ++ [.stopJoin] := rfl
  obtain ⟨hthreads, hrun1, hstop1, hctor1, hab1⟩ :=
    worker_runs_out s j t (outcome j) hab hrun hown ht hpw hw
  have hget : (s.run [.sessionReady j, .advance j, .snapDone j (outcome j),
      .advance j]).pool.threads[j]? = some { t with phase := Phase.exited } := by
    rw [hthreads, getElem?_setPhase, if_pos rfl, ht]
    rfl
  have hlen : (s.run [.sessionReady j, .advance j, .snapDone j (outcome j),
      .advance j]).pool.threads.length = s.pool.threads.length := by
    rw [hthreads, setPhase_length]
  have hstep : (s.run [.sessionReady j, .advance j, .snapDone j (outcome j),
      .advance j]).step .stopJoin
      = { s.run [.sessionReady j, .advance j, .snapDone j (outcome j), .advance j] with
          pool := (s.run [.sessionReady j, .advance j, .snapDone j (outcome j),
            .advance j]).pool.markJoined j
          stop := Stop.enter (j + 1) s.pool.threads.length } := by
    rw [step_stopJoin _ hab1, hstop1, hstop]
    simp only [hget, hj, hlen]
    rfl
  have hrunall : s.run (joinSchedule outcome j)
      = (s.run [.sessionReady j, .advance j, .snapDone j (outcome j), .advance j]).step
          .stopJoin := by
    rw [hsplit, run_append]
    rfl
  refine ⟨?_, ?_, ?_, ?_, ?_, ?_⟩
  · rw [hrunall, hstep]
    show List.modify _ j _ = _
    rw [hthreads]
    exact modify_joined s.pool.threads j
  · rw [hrunall, hstep]
    exact hrun1
  · rw [hrunall, hstep]
  · rw [hrunall, hstep]
    exact hctor1
  · rw [hrunall, hstep]
    exact hab1
  · exact run_owned s _ hown

/-- With `running_` false and no worker about to wait or waiting, the loop of `stop()`
from thread `k` on joins every thread and `stop()` returns. -/
theorem stop_completes (outcome : Nat → SnapResult) (m : Nat) (k : Nat) (s : System)
    (hab : s.aborted = false) (hrun : s.pool.running = false) (hown : s.Owned)
    (hlen : k + m = s.pool.threads.length)
    (hstop : s.stop = Stop.enter k s.pool.threads.length)
    (hall : ∀ (i : Nat) (t : Thread), k ≤ i → s.pool.threads[i]? = some t →
      t.joinable = true ∧ t.phase ≠ Phase.preWait ∧ t.phase ≠ Phase.waiting) :
    (s.run (stopSchedule outcome k m)).stop = Stop.returned
      ∧ (s.run (stopSchedule outcome k m)).pool.running = false
      ∧ (s.run (stopSchedule outcome k m)).aborted = false
      ∧ (s.run (stopSchedule outcome k m)).ctor = s.ctor
      ∧ ∀ i : Nat, (s.run (stopSchedule outcome k m)).pool.threads[i]?
          = if k ≤ i then (s.pool.threads[i]?).map Thread.joined else s.pool.threads[i]? := by
  induction m generalizing k s with
  | zero =>
    have hnil : s.run (stopSchedule outcome k 0) = s := rfl
    rw [hnil]
    refine ⟨?_, hrun, hab, rfl, ?_⟩
    · rw [hstop]
      simp only [Stop.enter]
      rw [if_neg (by omega)]
    · intro i
      split
      · rw [List.getElem?_eq_none (by omega)]
        rfl
      · rfl
  | succ m ih =>
    have hk : k < s.pool.threads.length := by omega
    have hget : s.pool.threads[k]? = some s.pool.threads[k] := List.getElem?_eq_getElem hk
    obtain ⟨hj, hpw, hw⟩ := hall k _ (Nat.le_refl k) hget
    have hjoining : s.stop = Stop.joining k := by
      rw [hstop]
      simp only [Stop.enter]
      rw [if_pos hk]
    obtain ⟨hthreads, hrun1, hstop1, hctor1, hab1, hown1⟩ :=
      join_one s k _ outcome hab hrun hown hjoining hget hj hpw hw
    have hlen1 : (s.run (joinSchedule outcome k)).pool.threads.length
        = s.pool.threads.length := by
      rw [hthreads, List.length_modify]
    have hrest := ih (k + 1) (s.run (joinSchedule outcome k)) hab1 hrun1 hown1
      (by rw [hlen1]; omega) (by rw [hstop1, hlen1]) (by
        intro i t hi hti
        rw [hthreads, List.getElem?_modify_ne _ _ (by omega)] at hti
        exact hall i t (by omega) hti)
    have hsched : stopSchedule outcome k (m + 1)
        = joinSchedule outcome k ++ stopSchedule outcome (k + 1) m := rfl
    rw [hsched, run_append]
    refine ⟨hrest.1, hrest.2.1, hrest.2.2.1, by rw [hrest.2.2.2.1, hctor1], ?_⟩
    intro i
    rw [hrest.2.2.2.2 i, hthreads]
    by_cases hki : k = i
    · subst hki
      rw [if_neg (by omega), if_pos (Nat.le_refl k), List.getElem?_modify_eq]
      rfl
    · rw [List.getElem?_modify_ne _ _ hki]
      by_cases hlt : k + 1 ≤ i
      · rw [if_pos hlt, if_pos (by omega)]
      · rw [if_neg hlt, if_neg (by omega)]

theorem stop_idle_back (s : System) (ev : Event) (h : (s.step ev).stop = Stop.idle) :
    s.stop = Stop.idle := by
  have enter_ne : ∀ k n, Stop.enter k n ≠ Stop.idle := by
    intro k n hc
    unfold Stop.enter at hc
    split at hc <;> cases hc
  cases hab : s.aborted with
  | true => rw [step_aborted s ev hab] at h; exact h
  | false =>
    cases ev with
    | ctorStep =>
      rw [step_ctorStep s hab] at h
      split at h
      · exact h
      · exact h
      · split at h <;> exact h
      · exact h
    | threadCreationFails =>
      rw [step_threadCreationFails s hab] at h
      split at h
      · exact absurd h (enter_ne _ _)
      · exact h
    | submit view => rw [step_submit s view hab] at h; exact h
    | sessionReady i => rw [step_sessionReady s i hab] at h; split at h <;> exact h
    | sessionFailed i e => rw [step_sessionFailed s i e hab] at h; split at h <;> exact h
    | advance i => rw [step_advance s i hab] at h; exact h
    | snapDone i result =>
      rw [step_snapDone s i result hab] at h
      split at h
      · split at h <;> exact h
      · exact h
    | spuriousWake i => rw [step_spuriousWake s i hab] at h; split at h <;> exact h
    | stopCall =>
      rw [step_stopCall s hab] at h
      split at h
      · exact h
      · exact absurd h (enter_ne _ _)
      · exact h
    | stopJoin =>
      rw [step_stopJoin s hab] at h
      split at h
      · split at h
        · cases h
        · split at h
          · cases h
          · split at h
            · exact absurd h (enter_ne _ _)
            · exact h
      · exact h

/-- Before anybody has called `stop()`, every thread is joinable. -/
theorem run_joinable (config : Config) (queryDevices : Except Exn (List Device))
    (events : List Event)
    (h : ((System.boot config queryDevices).run events).stop = Stop.idle) :
    ∀ (i : Nat) (t : Thread),
      ((System.boot config queryDevices).run events).pool.threads[i]? = some t →
      t.joinable = true := by
  have key : ∀ (events : List Event) (s : System),
      (s.stop = Stop.idle → ∀ (i : Nat) (t : Thread), s.pool.threads[i]? = some t →
        t.joinable = true) →
      (s.run events).stop = Stop.idle →
      ∀ (i : Nat) (t : Thread), (s.run events).pool.threads[i]? = some t →
        t.joinable = true := by
    intro events
    induction events with
    | nil => intro s hs hidle; exact hs hidle
    | cons ev rest ih =>
      intro s hs hidle
      apply ih (s.step ev) _ hidle
      intro hidle1 i u hu
      have hidle0 := stop_idle_back s ev hidle1
      cases ht : s.pool.threads[i]? with
      | some t =>
        obtain ⟨u1, hu1, _, _, _, _, hjoin⟩ := step_thread s ev i t ht
        rw [hu] at hu1
        cases hu1
        rcases hjoin with hsame | ⟨_, hjoining, _⟩
        · rw [hsame]
          exact hs hidle0 i t ht
        · rw [hidle0] at hjoining
          cases hjoining
      | none =>
        rcases step_thread_none s ev i ht with hn | ⟨_, _, _, _, _, _, _, hnew⟩
        · rw [hn] at hu
          cases hu
        · rw [hnew] at hu
          cases hu
          rfl
  apply key events _ _ h
  intro _ i t hti
  cases queryDevices with
  | ok devices => simp [System.boot] at hti
  | error e =>
    cases e <;> simp only [System.boot, System.stopSignal, AsyncSnapper.notify_all,
      List.map_nil] at hti
    all_goals simp at hti

/-- A `stop()` that joins a worker caught between its test of `running_` and `wait`, or
blocked in `wait`, stays in that `join` through every transition that is neither a
spurious wake-up of that worker nor a `notify` of a new request. -/
theorem stop_blocked_step (s : System) (ev : Event) (k : Nat) (t : Thread)
    (hctor : s.ctor = Ctor.done) (hstop : s.stop = Stop.joining k)
    (ht : s.pool.threads[k]? = some t) (hj : t.joinable = true)
    (hph : t.phase = Phase.preWait ∨ t.phase = Phase.waiting)
    (hwake : ev ≠ .spuriousWake k) (hsubmit : ∀ view, ev ≠ .submit view) :
    (s.step ev).ctor = Ctor.done ∧ (s.step ev).stop = Stop.joining k
      ∧ ∃ u, (s.step ev).pool.threads[k]? = some u ∧ u.joinable = true
          ∧ (u.phase = Phase.preWait ∨ u.phase = Phase.waiting) := by
  have keep : s.step ev = s → (s.step ev).ctor = Ctor.done ∧ (s.step ev).stop = Stop.joining k
      ∧ ∃ u, (s.step ev).pool.threads[k]? = some u ∧ u.joinable = true
          ∧ (u.phase = Phase.preWait ∨ u.phase = Phase.waiting) := by
    intro h
    rw [h]
    exact ⟨hctor, hstop, t, ht, hj, hph⟩
  have hthread : ev ≠ .stopCall → ev ≠ .threadCreationFails →
      ∃ u, (s.step ev).pool.threads[k]? = some u ∧ u.joinable = true
          ∧ (u.phase = Phase.preWait ∨ u.phase = Phase.waiting) := by
    intro h1 h2
    obtain ⟨u, hu, _, _, _, hphase, hjoin⟩ := step_thread s ev k t ht
    refine ⟨u, hu, ?_, ?_⟩
    · rcases hjoin with h | ⟨_, _, hex, _⟩
      · rw [h]; exact hj
      · rcases hph with h | h <;> rw [h] at hex <;> cases hex
    · rcases hphase with h | h
      · rw [h]; exact hph
      · rcases hph with hp | hp
        · rw [hp] at h
          cases hq : u.phase <;> rw [hq] at h <;> first
            | exact Or.inr rfl
            | exact absurd h (by simp [System.Moves])
        · rw [hp] at h
          cases hq : u.phase <;> rw [hq] at h <;> first
            | exact Or.inr rfl
            | (simp only [System.Moves] at h
               rcases h with h | ⟨view, h⟩ | h | h
               · exact absurd h hwake
               · exact absurd h (hsubmit view)
               · exact absurd h h1
               · exact absurd h h2)
            | exact absurd h (by simp [System.Moves])
  cases hab : s.aborted with
  | true => exact keep (step_aborted s ev hab)
  | false =>
    cases ev with
    | ctorStep =>
      apply keep
      rw [step_ctorStep s hab, hctor]
    | threadCreationFails =>
      apply keep
      rw [step_threadCreationFails s hab, hctor]
    | stopCall =>
      apply keep
      rw [step_stopCall s hab, hctor, hstop]
    | submit view => exact absurd rfl (hsubmit view)
    | sessionReady i =>
      refine ⟨?_, ?_, hthread (by simp) (by simp)⟩
      · rw [step_sessionReady s i hab]; split <;> exact hctor
      · rw [step_sessionReady s i hab]; split <;> exact hstop
    | sessionFailed i e =>
      refine ⟨?_, ?_, hthread (by simp) (by simp)⟩
      · rw [step_sessionFailed s i e hab]; split <;> exact hctor
      · rw [step_sessionFailed s i e hab]; split <;> exact hstop
    | advance i =>
      refine ⟨?_, ?_, hthread (by simp) (by simp)⟩
      · rw [step_advance s i hab]; exact hctor
      · rw [step_advance s i hab]; exact hstop
    | snapDone i result =>
      refine ⟨?_, ?_, hthread (by simp) (by simp)⟩
      · rw [step_snapDone s i result hab]
        split
        · split <;> exact hctor
        · exact hctor
      · rw [step_snapDone s i result hab]
        split
        · split <;> exact hstop
        · exact hstop
    | spuriousWake i =>
      refine ⟨?_, ?_, hthread (by simp) (by simp)⟩
      · rw [step_spuriousWake s i hab]; split <;> exact hctor
      · rw [step_spuriousWake s i hab]; split <;> exact hstop
    | stopJoin =>
      apply keep
      rw [step_stopJoin s hab, hstop]
      simp only [ht, hj, Bool.not_true, Bool.false_eq_true, if_false]
      rcases hph with h | h <;> rw [h]

/-- A `stop()` entered while worker `k` is the first to be joined and is caught between
its test of `running_` and `wait`, or is blocked in `wait`, never returns under a
schedule without a spurious wake-up of that worker and without a new request. -/
theorem stop_blocked (events : List Event) (s : System) (k : Nat) (t : Thread)
    (hctor : s.ctor = Ctor.done) (hstop : s.stop = Stop.joining k)
    (ht : s.pool.threads[k]? = some t) (hj : t.joinable = true)
    (hph : t.phase = Phase.preWait ∨ t.phase = Phase.waiting)
    (hev : ∀ ev ∈ events, ev ≠ .spuriousWake k ∧ ∀ view, ev ≠ .submit view) :
    (s.run events).stop = Stop.joining k := by
  induction events generalizing s t with
  | nil => exact hstop
  | cons ev rest ih =>
    rw [run_cons]
    obtain ⟨h1, h2, u, hu, huj, hup⟩ := stop_blocked_step s ev k t hctor hstop ht hj hph
      (hev ev (List.mem_cons_self _ _)).1 (hev ev (List.mem_cons_self _ _)).2
    exact ih (s.step ev) u h1 h2 hu huj hup
      (fun e he => hev e (List.mem_cons_of_mem _ he))

/-- The race of `stop()` with a worker that has tested `running_` and not yet called
`wait`: `notify_all` finds nobody waiting, the worker then blocks in `wait` with
`running_` already false, and `stop()` stays in `join` whatever happens next, short of a
spurious wake-up or a new request. -/
theorem stop_before_wait_blocks (events : List Event)
    (hev : ∀ ev ∈ events, ev ≠ .spuriousWake 0 ∧ ∀ view, ev ≠ .submit view) :
    ((System.boot sampleConfig oneDevice).run racingEvents).ctor = Ctor.done
      ∧ ((System.boot sampleConfig oneDevice).run racingEvents).stop = Stop.idle
      ∧ ((System.boot sampleConfig oneDevice).run racingEvents).pool.phase? 0
          = some Phase.preWait
      ∧ (((System.boot sampleConfig oneDevice).run racingEvents).run
            (.stopCall :: events)).stop = Stop.joining 0 := by
  refine ⟨by decide, by decide, by decide, ?_⟩
  rw [run_cons]
  exact stop_blocked events _ 0 { sampleThread (-1) 7 with phase := Phase.preWait }
    (by decide) (by decide) (by decide) rfl (Or.inl rfl) hev

theorem notify_all_joined (threads : List Thread) (requests : List Request) :
    AsyncSnapper.notify_all
        { threads := threads.map Thread.joined, running := false, requests := requests }
      = { threads := threads.map Thread.joined, running := false, requests := requests } := by
  simp only [AsyncSnapper.notify_all, List.map_map]
  congr 1

/-- A second `stop()`, on a pool whose threads have all been joined: without threads it
returns, otherwise its first `join` throws; the pool stays as it was. -/
theorem stop_again (u : System) (threads : List Thread) (hab : u.aborted = false)
    (hctor : u.ctor = Ctor.done) (hstop : u.stop = Stop.returned)
    (hrun : u.pool.running = false) (hthreads : u.pool.threads = threads.map Thread.joined) :
    (u.run [.stopCall, .stopJoin]).pool = u.pool
      ∧ (u.run [.stopCall, .stopJoin]).stop
        = (if threads = [] then Stop.returned else Stop.failed Exn.invalidArgument) := by
  obtain ⟨pool, ctor, stop, shared, aborted, log⟩ := u
  obtain ⟨ts, running, requests⟩ := pool
  simp only at hab hctor hstop hrun hthreads
  subst hab hctor hstop hrun hthreads
  have hcall : System.step
      { pool := { threads := threads.map Thread.joined, running := false,
                  requests := requests },
        ctor := Ctor.done, stop := Stop.returned, shared := shared, aborted := false,
        log := log } .stopCall
      = { pool := { threads := threads.map Thread.joined, running := false,
                    requests := requests },
          ctor := Ctor.done, stop := Stop.enter 0 (threads.map Thread.joined).length,
          shared := shared, aborted := false, log := log } := by
    rw [step_stopCall _ rfl]
    simp only [System.stopSignal, notify_all_joined]
  simp only [System.run, List.foldl_cons, List.foldl_nil]
  rw [hcall]
  cases threads with
  | nil =>
    simp only [List.map_nil, List.length_nil, Stop.enter, Nat.lt_irrefl, if_false]
    rw [step_stopJoin _ rfl]
    exact ⟨rfl, rfl⟩
  | cons t rest =>
    simp only [List.map_cons, List.length_cons, Stop.enter, Nat.zero_lt_succ, if_true]
    rw [step_stopJoin _ rfl]
    simp only [List.getElem?_cons_zero, Thread.joined]
    exact ⟨rfl, by simp⟩

/-- C7, as the code has it: the first `stop()` on the constructed pool, in any state the
pool can be in but with no worker caught between its test of `running_` and its call of
`wait`, sets `running_` to false, joins every worker and returns, once the sessions still
being built are built and the calls of `snap` still running have finished (so also on a
pool with no in-flight request). It is not idempotent: a second call returns only when
the pool has no thread; with at least one thread its first `join`, on a thread that is
no longer joinable, throws, and the pool stays as the first call left it. -/
theorem stop_then_stop (config : Config) (queryDevices : Except Exn (List Device))
    (events : List Event) (s : System) (outcome : Nat → SnapResult)
    (hs : s = (System.boot config queryDevices).run events)
    (hab : s.aborted = false) (hctor : s.ctor = Ctor.done) (hstop : s.stop = Stop.idle)
    (hrace : ∀ t ∈ s.pool.threads, t.phase ≠ Phase.preWait) :
    (s.run (.stopCall :: stopSchedule outcome 0 s.pool.threads.length)).stop = Stop.returned
      ∧ (s.run (.stopCall :: stopSchedule outcome 0 s.pool.threads.length)).pool.running
        = false
      ∧ (s.run (.stopCall :: stopSchedule outcome 0 s.pool.threads.length)).pool.threads
        = s.pool.threads.map Thread.joined
      ∧ (s.run (.stopCall :: stopSchedule outcome 0 s.pool.threads.length)).aborted = false
      ∧ ((s.run (.stopCall :: stopSchedule outcome 0 s.pool.threads.length)).run
            [.stopCall, .stopJoin]).stop
        = (if s.pool.threads = [] then Stop.returned else Stop.failed Exn.invalidArgument)
      ∧ ((s.run (.stopCall :: stopSchedule outcome 0 s.pool.threads.length)).run
            [.stopCall, .stopJoin]).pool
        = (s.run (.stopCall :: stopSchedule outcome 0 s.pool.threads.length)).pool := by
  have hown : s.Owned := by
    rw [hs]
    exact run_owned _ events (boot_owned config queryDevices)
  have hjoinable : ∀ (i : Nat) (t : Thread), s.pool.threads[i]? = some t →
      t.joinable = true := by
    rw [hs] at hstop ⊢
    exact run_joinable config queryDevices events hstop
  have hcall : s.step .stopCall = s.stopSignal := by
    rw [step_stopCall s hab, hctor, hstop]
  have hlen0 : s.stopSignal.pool.threads.length = s.pool.threads.length := by
    simp [System.stopSignal, AsyncSnapper.notify_all]
  have hget0 : ∀ i : Nat, s.stopSignal.pool.threads[i]?
      = (s.pool.threads[i]?).map (fun t =>
          match t.phase with
          | .waiting => { t with phase := Phase.loopHead }
          | _ => t) := by
    intro i
    exact getElem?_notify_all { s.pool with running := false } i
  have hall : ∀ (i : Nat) (t : Thread), 0 ≤ i → s.stopSignal.pool.threads[i]? = some t →
      t.joinable = true ∧ t.phase ≠ Phase.preWait ∧ t.phase ≠ Phase.waiting := by
    intro i t _ hti
    rw [hget0 i] at hti
    cases ht0 : s.pool.threads[i]? with
    | none => rw [ht0] at hti; cases hti
    | some t0 =>
      rw [ht0] at hti
      simp only [Option.map_some', Option.some.injEq] at hti
      have hj0 := hjoinable i t0 ht0
      have hp0 := hrace t0 (List.getElem?_mem ht0)
      cases hph : t0.phase <;> rw [hph] at hti <;> simp only at hti <;> subst hti
        <;> simp_all
  obtain ⟨hret, hrun1, hab1, hctor1, hthreads1⟩ :=
    stop_completes outcome s.pool.threads.length 0 s.stopSignal hab rfl
      (by rw [← hcall]; exact step_owned s _ hown)
      (by rw [hlen0]; omega) (by rw [hlen0]; rfl) hall
  have hrunall : s.run (.stopCall :: stopSchedule outcome 0 s.pool.threads.length)
      = s.stopSignal.run (stopSchedule outcome 0 s.pool.threads.length) := by
    rw [run_cons, hcall]
  have hfinal : (s.stopSignal.run (stopSchedule outcome 0 s.pool.threads.length)).pool.threads
      = s.pool.threads.map Thread.joined := by
    apply List.ext_getElem?
    intro i
    rw [hthreads1 i, if_pos (Nat.zero_le i), hget0 i, List.getElem?_map]
    cases s.pool.threads[i]? with
    | none => rfl
    | some t =>
      simp only [Option.map_some', Option.some.injEq]
      cases hph : t.phase <;> simp [Thread.joined]
  have hsecond := stop_again
    (s.stopSignal.run (stopSchedule outcome 0 s.pool.threads.length)) s.pool.threads hab1
    (by rw [hctor1]; exact hctor) hret hrun1 hfinal
  rw [hrunall]
  exact ⟨hret, hrun1, hfinal, hab1, hsecond.2, hsecond.1⟩

theorem stop_then_stop_witness :
    (((System.boot sampleConfig twoDevices).run busyEvents).pool.threads.map
          (fun t => t.phase) = [Phase.critical, Phase.boot])
      ∧ (((System.boot sampleConfig twoDevices).run busyEvents).run
            (.stopCall :: stopSchedule sampleOutcome 0 2)).stop = Stop.returned
      ∧ (((System.boot sampleConfig twoDevices).run busyEvents).run
            (.stopCall :: stopSchedule sampleOutcome 0 2)).pool.threads
          = [(sampleThread 0 7).joined, (sampleThread 1 8).joined]
      ∧ ((((System.boot sampleConfig twoDevices).run busyEvents).run
            (.stopCall :: stopSchedule sampleOutcome 0 2)).run [.stopCall, .stopJoin]).stop
          = Stop.failed Exn.invalidArgument :=
  ⟨by decide,
    (stop_then_stop sampleConfig twoDevices busyEvents _ sampleOutcome rfl (by decide)
      (by decide) (by decide) (by decide)).1,
    ((stop_then_stop sampleConfig twoDevices busyEvents _ sampleOutcome rfl (by decide)
      (by decide) (by decide) (by decide)).2.2.1).trans (by decide),
    ((stop_then_stop sampleConfig twoDevices busyEvents _ sampleOutcome rfl (by decide)
      (by decide) (by decide) (by decide)).2.2.2.2.1).trans (by decide)⟩

/-- C7 fails as stated: with both workers blocked in `wait`, the first `stop()` returns
with both threads joined and the second one is left by the exception of `join`; and with
the only worker caught between its test of `running_` and `wait`, `stop()` is still
blocked in its first `join` after the worker has run as far as it can. -/
theorem stop_twice_counterexample :
    (((System.boot sampleConfig twoDevices).run idleEvents).pool.threads.map
          (fun t => t.phase) = [Phase.waiting, Phase.waiting])
      ∧ (((System.boot sampleConfig twoDevices).run idleEvents).run
            (.stopCall :: stopSchedule sampleOutcome 0 2)).stop = Stop.returned
      ∧ ((((System.boot sampleConfig twoDevices).run idleEvents).run
            (.stopCall :: stopSchedule sampleOutcome 0 2)).run [.stopCall, .stopJoin]).stop
          = Stop.failed Exn.invalidArgument
      ∧ ((((System.boot sampleConfig twoDevices).run idleEvents).run
            (.stopCall :: stopSchedule sampleOutcome 0 2)).run [.stopCall, .stopJoin]).stop
          ≠ Stop.returned
      ∧ (((System.boot sampleConfig oneDevice).run racingEvents).pool.threads.map
          (fun t => t.phase) = [Phase.preWait])
      ∧ (((System.boot sampleConfig oneDevice).run racingEvents).run
            (.stopCall :: stopSchedule sampleOutcome 0 1)).stop = Stop.joining 0
      ∧ (((System.boot sampleConfig oneDevice).run racingEvents).run
            (.stopCall :: stopSchedule sampleOutcome 0 1)).pool.threads.map
          (fun t => t.phase) = [Phase.waiting] := by
  decide

/-! ### The constructor: failure and its guard -/

theorem moves_joined (s : System) (ev : Event) (i : Nat) (t u : Thread)
    (h : s.ThreadMoves ev i t u) (hex : t.phase = Phase.exited) (hj : t.joinable = false) :
    u.phase = Phase.exited ∧ u.joinable = false := by
  obtain ⟨_, _, _, hphase, hjoin⟩ := h
  constructor
  · rcases hphase with h | h
    · rw [h]; exact hex
    · rw [hex] at h
      cases hq : u.phase <;> rw [hq] at h <;> first
        | rfl
        | exact absurd h (by simp [System.Moves])
  · rcases hjoin with h | ⟨_, _, _, h⟩
    · rw [h]; exact hj
    · exact h

theorem moves_early (s : System) (ev : Event) (i : Nat) (t u : Thread)
    (h : s.ThreadMoves ev i t u) (hrun : s.pool.running = false)
    (he : t.phase.early = true) : u.phase.early = true := by
  obtain ⟨_, _, _, hphase, _⟩ := h
  rcases hphase with h | h
  · rw [h]; exact he
  · cases hp : t.phase <;> rw [hp] at h he <;> cases hq : u.phase <;> rw [hq] at h
      <;> simp_all [System.Moves, Phase.early]

/-- A thread of the next state was there before, or the constructor has just started
it. -/
theorem thread_back (s : System) (ev : Event) (i : Nat) (u : Thread)
    (h : (s.step ev).pool.threads[i]? = some u) :
    (∃ t, s.pool.threads[i]? = some t ∧ s.ThreadMoves ev i t u)
      ∨ (s.pool.threads[i]? = none ∧ u.phase = Phase.boot ∧ u.joinable = true
          ∧ ∃ config threadId device rest,
              s.ctor = Ctor.spawning config threadId (device :: rest)) := by
  cases ht : s.pool.threads[i]? with
  | some t =>
    obtain ⟨u1, hu1, hm⟩ := step_thread s ev i t ht
    rw [hu1] at h
    rw [← Option.some.inj h]
    exact Or.inl ⟨t, rfl, hm⟩
  | none =>
    rcases step_thread_none s ev i ht with hn | ⟨_, _, config, threadId, device, rest, hc, hnew⟩
    · rw [hn] at h; cases h
    · rw [hnew] at h
      rw [← Option.some.inj h]
      exact Or.inr ⟨rfl, rfl, rfl, config, threadId, device, rest, hc⟩

/-- A transition that leaves `stop()` where it stands keeps the invariant, if the
constructor moves as it may. -/
theorem guarded_same_stop (s : System) (ev : Event) (hg : s.Guarded)
    (hstop : (s.step ev).stop = s.stop)
    (h3 : ∀ config threadId devices, (s.step ev).ctor = Ctor.spawning config threadId devices →
      (s.step ev).pool.running = false
        ∧ ∃ config1 threadId1 devices1, s.ctor = Ctor.spawning config1 threadId1 devices1)
    (h4 : ∀ e, (s.step ev).ctor = Ctor.unwinding e → (s.step ev).pool.running = false)
    (h5 : ∀ e, (s.step ev).ctor = Ctor.failed e →
      (s.step ev).stop = Stop.returned ∧ (s.step ev).pool.running = false) :
    (s.step ev).Guarded := by
  obtain ⟨g1, g2, g3, _, _⟩ := hg
  refine ⟨?_, ?_, ?_, h4, h5⟩
  · intro k hk i u hik hu
    rw [hstop] at hk
    rcases thread_back s ev i u hu with ⟨t, ht, hm⟩ | ⟨_, _, _, c, id, d, r, hc⟩
    · obtain ⟨hex, hj⟩ := g1 k hk i t hik ht
      exact moves_joined s ev i t u hm hex hj
    · rw [(g3 c id (d :: r) hc).1] at hk
      cases hk
  · intro hk i u hu
    rw [hstop] at hk
    rcases thread_back s ev i u hu with ⟨t, ht, hm⟩ | ⟨_, _, _, c, id, d, r, hc⟩
    · obtain ⟨hex, hj⟩ := g2 hk i t ht
      exact moves_joined s ev i t u hm hex hj
    · rw [(g3 c id (d :: r) hc).1] at hk
      cases hk
  · intro config threadId devices hc
    obtain ⟨hrun, c1, id1, r1, hc1⟩ := h3 config threadId devices hc
    obtain ⟨hidle, hrun0, hearly⟩ := g3 c1 id1 r1 hc1
    refine ⟨by rw [hstop]; exact hidle, hrun, ?_⟩
    intro i u hu
    rcases thread_back s ev i u hu with ⟨t, ht, hm⟩ | ⟨_, hboot, _⟩
    · exact moves_early s ev i t u hm hrun0 (hearly i t ht)
    · rw [hboot]; rfl

/-- A transition that leaves `stop()`, the constructor and `running_` where they are
keeps the invariant. -/
theorem guarded_quiet (s : System) (ev : Event) (hg : s.Guarded)
    (hstop : (s.step ev).stop = s.stop) (hctor : (s.step ev).ctor = s.ctor)
    (hrun : (s.step ev).pool.running = s.pool.running) : (s.step ev).Guarded := by
  apply guarded_same_stop s ev hg hstop
  · intro config threadId devices hc
    rw [hctor] at hc
    rw [hrun]
    exact ⟨(hg.2.2.1 config threadId devices hc).2.1, config, threadId, devices, hc⟩
  · intro e hc
    rw [hctor] at hc
    rw [hrun]
    exact hg.2.2.2.1 e hc
  · intro e hc
    rw [hctor] at hc
    rw [hrun, hstop]
    exact hg.2.2.2.2 e hc

theorem advance_running (self : AsyncSnapper) (i : Nat) :
    (self.advance i).1.running = self.running := by
  unfold AsyncSnapper.advance
  split
  · split <;> rfl
  · split
    · split <;> rfl
    · rfl
  · rfl
  · rfl

/-- After lines 415-416 the invariant holds, wherever the constructor is not spawning
and has not failed. -/
theorem guarded_stopSignal (s : System) (ctor : Ctor)
    (hc : ctor = Ctor.done ∨ ∃ e, ctor = Ctor.unwinding e) :
    System.Guarded { s.stopSignal with ctor := ctor } := by
  have hlen : ({ s.pool with running := false } : AsyncSnapper).notify_all.threads.length
      = s.pool.threads.length := notify_all_length _
  refine ⟨?_, ?_, ?_, ?_, ?_⟩
  · intro k hk i t hik _
    simp only [System.stopSignal, Stop.enter] at hk
    split at hk
    · rw [← Stop.joining.inj hk] at hik
      exact absurd hik (Nat.not_lt_zero i)
    · cases hk
  · intro hk i t ht
    simp only [System.stopSignal, Stop.enter] at hk
    split at hk
    · cases hk
    · rename_i hn
      have hlt := (List.getElem?_eq_some.mp ht).1
      simp only [System.stopSignal] at hlt
      rw [hlen] at hlt
      exact absurd (Nat.lt_of_le_of_lt (Nat.zero_le i) hlt) hn
  · intro config threadId devices h
    rcases hc with hc | ⟨e, hc⟩ <;> rw [hc] at h <;> cases h
  · intro e _
    rfl
  · intro e h
    rcases hc with hc | ⟨e1, hc⟩ <;> rw [hc] at h <;> cases h

theorem step_guarded (s : System) (ev : Event) (hg : s.Guarded) : (s.step ev).Guarded := by
  have keep : s.step ev = s → (s.step ev).Guarded := by
    intro h
    rw [h]
    exact hg
  cases hab : s.aborted with
  | true => exact keep (step_aborted s ev hab)
  | false =>
    cases ev with
    | submit view =>
      apply guarded_quiet s _ hg <;> rw [step_submit s view hab]
      rfl
    | sessionReady i =>
      apply guarded_quiet s _ hg <;> rw [step_sessionReady s i hab] <;> split <;> rfl
    | sessionFailed i e =>
      apply guarded_quiet s _ hg <;> rw [step_sessionFailed s i e hab] <;> split <;> rfl
    | advance i =>
      apply guarded_quiet s _ hg <;> rw [step_advance s i hab]
      · exact advance_running s.pool i
    | snapDone i result =>
      apply guarded_quiet s _ hg <;> rw [step_snapDone s i result hab] <;> split
        <;> first | rfl | (split <;> rfl)
    | spuriousWake i =>
      apply guarded_quiet s _ hg <;> rw [step_spuriousWake s i hab] <;> split <;> rfl
    | ctorStep =>
      cases hc : s.ctor with
      | spawning config threadId devices =>
        cases devices with
        | cons device rest =>
          have hstep : s.step .ctorStep
              = { s with
                  pool := { s.pool with threads := s.pool.threads ++
                    [{ threadId := threadId, config := config, device := device
                       phase := Phase.boot, joinable := true }] }
                  ctor := Ctor.spawning config (threadId + 1) rest } := by
            rw [step_ctorStep s hab, hc]
          apply guarded_same_stop s _ hg (by rw [hstep])
          · intro c1 id1 r1 _
            rw [hstep]
            exact ⟨(hg.2.2.1 _ _ _ hc).2.1, _, _, _, hc⟩
          · intro e h
            rw [hstep] at h
            cases h
          · intro e h
            rw [hstep] at h
            cases h
        | nil =>
          have hstep : s.step .ctorStep
              = { s with pool := { s.pool with running := true }, ctor := Ctor.done } := by
            rw [step_ctorStep s hab, hc]
          apply guarded_same_stop s _ hg (by rw [hstep])
          · intro c1 id1 r1 h
            rw [hstep] at h
            cases h
          · intro e h
            rw [hstep] at h
            cases h
          · intro e h
            rw [hstep] at h
            cases h
      | unwinding e =>
        cases hst : s.stop with
        | returned =>
          have hstep : s.step .ctorStep = { s with ctor := Ctor.failed e } := by
            rw [step_ctorStep s hab, hc]
            simp only [hst]
          apply guarded_same_stop s _ hg (by rw [hstep])
          · intro c1 id1 r1 h
            rw [hstep] at h
            cases h
          · intro e1 h
            rw [hstep] at h
            cases h
          · intro e1 _
            rw [hstep]
            exact ⟨hst, hg.2.2.2.1 e hc⟩
        | failed e1 =>
          have hstep : s.step .ctorStep = { s with aborted := true } := by
            rw [step_ctorStep s hab, hc]
            simp only [hst]
          apply guarded_quiet s _ hg <;> rw [hstep]
        | idle =>
          apply keep
          rw [step_ctorStep s hab, hc]
          simp only [hst]
        | joining k =>
          apply keep
          rw [step_ctorStep s hab, hc]
          simp only [hst]
      | done =>
        apply keep
        rw [step_ctorStep s hab, hc]
      | failed e =>
        apply keep
        rw [step_ctorStep s hab, hc]
    | threadCreationFails =>
      rw [step_threadCreationFails s hab]
      split
      · exact guarded_stopSignal s _ (Or.inr ⟨_, rfl⟩)
      · exact hg
    | stopCall =>
      rw [step_stopCall s hab]
      split
      · exact hg
      · rename_i hc _
        have h := guarded_stopSignal s Ctor.done (Or.inl rfl)
        have heq : ({ s.stopSignal with ctor := Ctor.done } : System) = s.stopSignal := by
          simp only [System.stopSignal]
          rw [hc]
        rw [heq] at h
        exact h
      · exact hg
    | stopJoin =>
      obtain ⟨g1, g2, g3, g4, g5⟩ := hg
      cases hst : s.stop with
      | joining k =>
        have hspawn : ∀ config threadId devices,
            s.ctor ≠ Ctor.spawning config threadId devices := by
          intro c id r h
          rw [(g3 c id r h).1] at hst
          cases hst
        have hfailed : ∀ e, s.ctor ≠ Ctor.failed e := by
          intro e h
          rw [(g5 e h).1] at hst
          cases hst
        cases ht : s.pool.threads[k]? with
        | none =>
          have hstep : s.step .stopJoin = { s with stop := Stop.returned } := by
            rw [step_stopJoin s hab, hst]
            simp only [ht]
          rw [hstep]
          refine ⟨?_, ?_, ?_, g4, ?_⟩
          · intro k1 h
            cases h
          · intro _ i t hti
            have hlt := (List.getElem?_eq_some.mp hti).1
            have hge : s.pool.threads.length ≤ k := by
              by_contra hlt2
              have := List.getElem?_eq_getElem (Nat.lt_of_not_le hlt2)
              rw [this] at ht
              cases ht
            exact g1 k hst i t (Nat.lt_of_lt_of_le hlt hge) hti
          · intro c id r h
            exact absurd h (hspawn c id r)
          · intro e h
            exact absurd h (hfailed e)
        | some t =>
          cases hj : t.joinable with
          | false =>
            have hstep : s.step .stopJoin
                = { s with stop := Stop.failed Exn.invalidArgument } := by
              rw [step_stopJoin s hab, hst]
              simp only [ht, hj, Bool.not_false, if_true]
            rw [hstep]
            refine ⟨?_, ?_, ?_, g4, ?_⟩
            · intro k1 h
              cases h
            · intro h
              cases h
            · intro c id r h
              exact absurd h (hspawn c id r)
            · intro e h
              exact absurd h (hfailed e)
          | true =>
            by_cases hex : t.phase = Phase.exited
            · have hstep : s.step .stopJoin
                  = { s with
                      pool := s.pool.markJoined k
                      stop := Stop.enter (k + 1) s.pool.threads.length } := by
                rw [step_stopJoin s hab, hst]
                simp only [ht, hj, Bool.not_true, Bool.false_eq_true, if_false, hex]
              have hklt := (List.getElem?_eq_some.mp ht).1
              have hbelow : ∀ (i : Nat) (u : Thread), i < k + 1 →
                  (s.pool.markJoined k).threads[i]? = some u →
                  u.phase = Phase.exited ∧ u.joinable = false := by
                intro i u hik hu
                rw [getElem?_markJoined] at hu
                by_cases hki : k = i
                · rw [if_pos hki, ← hki, ht] at hu
                  simp only [Option.map_some', Option.some.injEq] at hu
                  rw [← hu]
                  exact ⟨hex, rfl⟩
                · rw [if_neg hki] at hu
                  exact g1 k hst i u (by omega) hu
              rw [hstep]
              refine ⟨?_, ?_, ?_, g4, ?_⟩
              · intro k1 h i u hik hu
                simp only [Stop.enter] at h
                split at h
                · rw [← Stop.joining.inj h] at hik
                  exact hbelow i u hik hu
                · cases h
              · intro h i u hu
                simp only [Stop.enter] at h
                split at h
                · cases h
                · rename_i hn
                  have hlt := (List.getElem?_eq_some.mp hu).1
                  rw [markJoined_length] at hlt
                  exact hbelow i u (by omega) hu
              · intro c id r h
                exact absurd h (hspawn c id r)
              · intro e h
                exact absurd h (hfailed e)
            · apply keep
              rw [step_stopJoin s hab, hst]
              simp only [ht, hj, Bool.not_true, Bool.false_eq_true, if_false]
      | idle =>
        apply keep
        rw [step_stopJoin s hab, hst]
      | returned =>
        apply keep
        rw [step_stopJoin s hab, hst]
      | failed e =>
        apply keep
        rw [step_stopJoin s hab, hst]

theorem run_guarded (s : System) (events : List Event) (h : s.Guarded) :
    (s.run events).Guarded := by
  induction events generalizing s with
  | nil => exact h
  | cons ev rest ih => exact ih (s.step ev) (step_guarded s ev h)

theorem boot_guarded (config : Config) (queryDevices : Except Exn (List Device)) :
    (System.boot config queryDevices).Guarded := by
  have hspawn : ∀ threadId devices,
      System.Guarded
        { pool := { threads := [], running := false, requests := [] }
          ctor := Ctor.spawning config threadId devices, stop := Stop.idle, shared := []
          aborted := false, log := [] } := by
    intro threadId devices
    refine ⟨?_, ?_, ?_, ?_, ?_⟩
    · intro k h
      cases h
    · intro h
      cases h
    · intro c id r _
      refine ⟨rfl, rfl, ?_⟩
      intro i t ht
      simp at ht
    · intro e h
      cases h
    · intro e h
      cases h
  have hunwind : ∀ e,
      System.Guarded
        { System.stopSignal
            { pool := { threads := [], running := false, requests := [] }
              ctor := Ctor.done, stop := Stop.idle, shared := [], aborted := false
              log := [] } with ctor := Ctor.unwinding e } :=
    fun e => guarded_stopSignal _ _ (Or.inr ⟨e, rfl⟩)
  cases queryDevices with
  | ok devices => exact hspawn _ devices
  | error e =>
    cases e with
    | missingExtension => exact hspawn _ _
    | glProcAddress => exact hunwind _
    | cannotCreateFence => exact hunwind _
    | invalidArgument => exact hunwind _
    | promiseAlreadySatisfied => exact hunwind _
    | noState => exact hunwind _
    | resourceUnavailable => exact hunwind _
    | egl code => exact hunwind _
    | engine code => exact hunwind _

theorem step_blames (queryDevices : Except Exn (List Device)) (s : System) (ev : Event)
    (h : s.ctor.Blames queryDevices) : (s.step ev).ctor.Blames queryDevices := by
  cases hab : s.aborted with
  | true => rw [step_aborted s ev hab]; exact h
  | false =>
    rcases step_ctor s ev with hsame | hev | hev
    · rw [hsame]; exact h
    · rw [hev]
      cases hc : s.ctor with
      | spawning config threadId devices =>
        cases devices with
        | nil =>
          have hstep : (s.step .ctorStep).ctor = Ctor.done := by
            rw [step_ctorStep s hab, hc]
          rw [hstep]
          trivial
        | cons device rest =>
          have hstep : (s.step .ctorStep).ctor = Ctor.spawning config (threadId + 1) rest := by
            rw [step_ctorStep s hab, hc]
          rw [hstep]
          trivial
      | unwinding e =>
        rw [hc] at h
        have hstep : (s.step .ctorStep).ctor = Ctor.unwinding e
            ∨ (s.step .ctorStep).ctor = Ctor.failed e := by
          rw [step_ctorStep s hab, hc]
          cases s.stop <;> first
            | exact Or.inl hc
            | exact Or.inl rfl
            | exact Or.inr rfl
        rcases hstep with hstep | hstep <;> rw [hstep] <;> exact h
      | done =>
        have hstep : (s.step .ctorStep).ctor = Ctor.done := by
          rw [step_ctorStep s hab, hc]
          exact hc
        rw [hstep]
        trivial
      | failed e =>
        rw [hc] at h
        have hstep : (s.step .ctorStep).ctor = Ctor.failed e := by
          rw [step_ctorStep s hab, hc]
          exact hc
        rw [hstep]
        exact h
    · rw [hev, step_threadCreationFails s hab]
      split
      · exact Or.inr rfl
      · exact h

theorem run_blames (queryDevices : Except Exn (List Device)) (s : System)
    (events : List Event) (h : s.ctor.Blames queryDevices) :
    (s.run events).ctor.Blames queryDevices := by
  induction events generalizing s with
  | nil => exact h
  | cons ev rest ih => exact ih (s.step ev) (step_blames queryDevices s ev h)

theorem boot_blames (config : Config) (queryDevices : Except Exn (List Device)) :
    (System.boot config queryDevices).ctor.Blames queryDevices := by
  cases queryDevices with
  | ok devices => trivial
  | error e =>
    cases e <;> first
      | trivial
      | exact Or.inl ⟨rfl, by simp⟩

/-- When a thread cannot be started, the guard's `stop()` joins every worker started
before, each once its session is built and it has left its loop, and only then the
exception leaves the constructor. -/
theorem guard_completes (config : Config) (queryDevices : Except Exn (List Device))
    (events : List Event) (config1 : Config) (threadId : Int) (device : Device)
    (rest : List Device) (outcome : Nat → SnapResult)
    (hab : ((System.boot config queryDevices).run events).aborted = false)
    (hc : ((System.boot config queryDevices).run events).ctor
      = Ctor.spawning config1 threadId (device :: rest)) :
    (((System.boot config queryDevices).run events).run
        (.threadCreationFails :: (stopSchedule outcome 0
          ((System.boot config queryDevices).run events).pool.threads.length
            ++ [.ctorStep]))).ctor = Ctor.failed Exn.resourceUnavailable
      ∧ (((System.boot config queryDevices).run events).run
        (.threadCreationFails :: (stopSchedule outcome 0
          ((System.boot config queryDevices).run events).pool.threads.length
            ++ [.ctorStep]))).pool.threads
          = ((System.boot config queryDevices).run events).pool.threads.map Thread.joined
      ∧ (((System.boot config queryDevices).run events).run
        (.threadCreationFails :: (stopSchedule outcome 0
          ((System.boot config queryDevices).run events).pool.threads.length
            ++ [.ctorStep]))).pool.running = false
      ∧ (((System.boot config queryDevices).run events).run
        (.threadCreationFails :: (stopSchedule outcome 0
          ((System.boot config queryDevices).run events).pool.threads.length
            ++ [.ctorStep]))).stop = Stop.returned
      ∧ (((System.boot config queryDevices).run events).run
        (.threadCreationFails :: (stopSchedule outcome 0
          ((System.boot config queryDevices).run events).pool.threads.length
            ++ [.ctorStep]))).aborted = false := by
  have hg := run_guarded _ events (boot_guarded config queryDevices)
  have hown := run_owned _ events (boot_owned config queryDevices)
  obtain ⟨hidle, _, hearly⟩ := hg.2.2.1 _ _ _ hc
  have hjoinable := run_joinable config queryDevices events hidle
  generalize (System.boot config queryDevices).run events = s at *
  have hfail : s.step .threadCreationFails
      = { s.stopSignal with ctor := Ctor.unwinding Exn.resourceUnavailable } := by
    rw [step_threadCreationFails s hab, hc]
  have hlen0 : s.stopSignal.pool.threads.length = s.pool.threads.length := by
    simp [System.stopSignal, AsyncSnapper.notify_all]
  have hget0 : ∀ i : Nat, s.stopSignal.pool.threads[i]?
      = (s.pool.threads[i]?).map (fun t =>
          match t.phase with
          | .waiting => { t with phase := Phase.loopHead }
          | _ => t) := by
    intro i
    exact getElem?_notify_all { s.pool with running := false } i
  have hall : ∀ (i : Nat) (t : Thread), 0 ≤ i →
      ({ s.stopSignal with ctor := Ctor.unwinding Exn.resourceUnavailable }
        : System).pool.threads[i]? = some t →
      t.joinable = true ∧ t.phase ≠ Phase.preWait ∧ t.phase ≠ Phase.waiting := by
    intro i t _ hti
    have hti0 : s.stopSignal.pool.threads[i]? = some t := hti
    rw [hget0 i] at hti0
    cases ht0 : s.pool.threads[i]? with
    | none => rw [ht0] at hti0; cases hti0
    | some t0 =>
      rw [ht0] at hti0
      simp only [Option.map_some', Option.some.injEq] at hti0
      have hj0 := hjoinable i t0 ht0
      have he0 := hearly i t0 ht0
      cases hph : t0.phase <;> rw [hph] at hti0 he0 <;> simp only at hti0 <;> subst hti0
        <;> simp_all [Phase.early]
  obtain ⟨hret, hrun1, hab1, hctor1, hthreads1⟩ :=
    stop_completes outcome s.pool.threads.length 0
      { s.stopSignal with ctor := Ctor.unwinding Exn.resourceUnavailable } hab rfl
      (by rw [← hfail]; exact step_owned s _ hown)
      (by show 0 + _ = s.stopSignal.pool.threads.length; rw [hlen0]; omega)
      (by show Stop.enter 0 _ = Stop.enter 0 s.stopSignal.pool.threads.length; rw [hlen0])
      hall
  have hlast : (({ s.stopSignal with ctor := Ctor.unwinding Exn.resourceUnavailable }
        : System).run (stopSchedule outcome 0 s.pool.threads.length)).step .ctorStep
      = { ({ s.stopSignal with ctor := Ctor.unwinding Exn.resourceUnavailable }
            : System).run (stopSchedule outcome 0 s.pool.threads.length) with
          ctor := Ctor.failed Exn.resourceUnavailable } := by
    rw [step_ctorStep _ hab1, hctor1]
    simp only [hret]
  have hrunall : s.run (.threadCreationFails
        :: (stopSchedule outcome 0 s.pool.threads.length ++ [.ctorStep]))
      = { ({ s.stopSignal with ctor := Ctor.unwinding Exn.resourceUnavailable }
            : System).run (stopSchedule outcome 0 s.pool.threads.length) with
          ctor := Ctor.failed Exn.resourceUnavailable } := by
    rw [run_cons, hfail, run_append]
    exact hlast
  rw [hrunall]
  refine ⟨rfl, ?_, hrun1, hret, hab1⟩
  apply List.ext_getElem?
  intro i
  show (({ s.stopSignal with ctor := Ctor.unwinding Exn.resourceUnavailable }
        : System).run (stopSchedule outcome 0 s.pool.threads.length)).pool.threads[i]? = _
  rw [hthreads1 i, if_pos (Nat.zero_le i)]
  have hti : ({ s.stopSignal with ctor := Ctor.unwinding Exn.resourceUnavailable }
        : System).pool.threads[i]? = s.stopSignal.pool.threads[i]? := rfl
  rw [hti, hget0 i, List.getElem?_map]
  cases s.pool.threads[i]? with
  | none => rfl
  | some t =>
    simp only [Option.map_some', Option.some.injEq]
    cases hph : t.phase <;> simp [Thread.joined]

/-- A worker whose session is still being built keeps the constructor from having
failed: a failed constructor has joined every worker. -/
theorem boot_not_failed (s : System) (hg : s.Guarded) (i : Nat)
    (hph : s.pool.phase? i = some Phase.boot) (e : Exn) : s.ctor ≠ Ctor.failed e := by
  intro hc
  obtain ⟨t, ht, htp⟩ := phase?_some s.pool i Phase.boot hph
  have hex := (hg.2.1 (hg.2.2.2.2 e hc).1 i t ht).1
  rw [htp] at hex
  cases hex

/-- C6, as the code has it: the constructor of `AsyncSnapper` does not report the failure
of a worker's session. The `Snapper` is built on the worker's thread; when that throws
the exception leaves the thread function and the process is terminated, with no worker
stopped or joined, and the constructor, which has not failed, never does. The constructor
fails only with the exception of the device enumeration, other than `MissingExtension`,
or of a thread that could not be started; then its guard has run `stop()`, that is
`running_` is false and every worker started before has returned and is joined, and
this teardown does complete once the sessions being built are built. -/
theorem ctor_failure (config : Config) (queryDevices : Except Exn (List Device))
    (events : List Event) (s : System)
    (hs : s = (System.boot config queryDevices).run events) :
    (∀ e, s.ctor = Ctor.failed e →
        ((queryDevices = .error e ∧ e ≠ Exn.missingExtension) ∨ e = Exn.resourceUnavailable)
          ∧ s.stop = Stop.returned ∧ s.pool.running = false
          ∧ ∀ t ∈ s.pool.threads, t.phase = Phase.exited ∧ t.joinable = false)
      ∧ (∀ (i : Nat) (e : Exn) (more : List Event), s.aborted = false →
          s.pool.phase? i = some Phase.boot →
          (s.step (.sessionFailed i e)).run more = { s with aborted := true }
            ∧ ∀ e1, s.ctor ≠ Ctor.failed e1)
      ∧ (∀ (config1 : Config) (threadId : Int) (device : Device) (rest : List Device)
          (outcome : Nat → SnapResult), s.aborted = false →
          s.ctor = Ctor.spawning config1 threadId (device :: rest) →
          (s.run (.threadCreationFails
              :: (stopSchedule outcome 0 s.pool.threads.length ++ [.ctorStep]))).ctor
              = Ctor.failed Exn.resourceUnavailable
            ∧ (s.run (.threadCreationFails
              :: (stopSchedule outcome 0 s.pool.threads.length ++ [.ctorStep]))).pool.threads
              = s.pool.threads.map Thread.joined
            ∧ (s.run (.threadCreationFails
              :: (stopSchedule outcome 0 s.pool.threads.length ++ [.ctorStep]))).pool.running
              = false
            ∧ (s.run (.threadCreationFails
              :: (stopSchedule outcome 0 s.pool.threads.length ++ [.ctorStep]))).aborted
              = false)
      ∧ (∀ e, e ≠ Exn.missingExtension →
          (System.boot config (.error e)).run [.ctorStep]
            = { pool := { threads := [], running := false, requests := [] }
                ctor := Ctor.failed e, stop := Stop.returned, shared := [], aborted := false
                log := [] }) := by
  have hg : s.Guarded := by
    rw [hs]
    exact run_guarded _ events (boot_guarded config queryDevices)
  have hb : s.ctor.Blames queryDevices := by
    rw [hs]
    exact run_blames queryDevices _ events (boot_blames config queryDevices)
  refine ⟨?_, ?_, ?_, ?_⟩
  · intro e hc
    rw [hc] at hb
    obtain ⟨hret, hrun⟩ := hg.2.2.2.2 e hc
    refine ⟨hb, hret, hrun, ?_⟩
    intro t ht
    obtain ⟨i, hi⟩ := List.getElem?_of_mem ht
    exact hg.2.1 hret i t hi
  · intro i e more hab hph
    refine ⟨?_, boot_not_failed s hg i hph⟩
    have hstep : s.step (.sessionFailed i e) = { s with aborted := true } := by
      rw [step_sessionFailed s i e hab, hph]
    rw [hstep]
    exact run_aborted _ more rfl
  · intro config1 threadId device rest outcome hab hc
    subst hs
    obtain ⟨h1, h2, h3, _, h5⟩ :=
      guard_completes config queryDevices events config1 threadId device rest outcome hab hc
    exact ⟨h1, h2, h3, h5⟩
  · intro e he
    cases e <;> first
      | rfl
      | exact absurd rfl he

theorem ctor_failure_witness :
    (((System.boot sampleConfig twoDevices).run [.ctorStep]).run
        (.threadCreationFails :: (stopSchedule sampleOutcome 0 1 ++ [.ctorStep]))).ctor
        = Ctor.failed Exn.resourceUnavailable
      ∧ (((System.boot sampleConfig twoDevices).run [.ctorStep]).run
        (.threadCreationFails :: (stopSchedule sampleOutcome 0 1 ++ [.ctorStep]))).pool.threads
        = [(sampleThread 0 7).joined]
      ∧ (((System.boot sampleConfig twoDevices).run [.ctorStep]).step
            (.sessionFailed 0 (Exn.egl 3))).run [.ctorStep, .ctorStep]
        = { (System.boot sampleConfig twoDevices).run [.ctorStep] with aborted := true } :=
  ⟨((ctor_failure sampleConfig twoDevices [.ctorStep] _ rfl).2.2.1
      sampleConfig 1 { handle := some 8 } [] sampleOutcome (by decide) (by decide)).1,
    ((ctor_failure sampleConfig twoDevices [.ctorStep] _ rfl).2.2.1
      sampleConfig 1 { handle := some 8 } [] sampleOutcome (by decide) (by decide)).2.1,
    ((ctor_failure sampleConfig twoDevices [.ctorStep] _ rfl).2.1 0 (Exn.egl 3)
      [.ctorStep, .ctorStep] (by decide) (by decide)).1⟩

/-- C6 fails as stated: the session of the second worker fails after the constructor has
returned the pool, so the failure does not surface from the constructor, the process is
terminated and no worker has been stopped or joined; a session that fails while the
constructor still spawns terminates the process as well and the constructor never
throws; and a pool is returned to the caller in which the first worker has already
left, so with fewer live workers than devices. -/
theorem session_failure_counterexample :
    ((System.boot sampleConfig twoDevices).run
        [.ctorStep, .ctorStep, .ctorStep, .sessionFailed 1 (Exn.egl 3)]).ctor = Ctor.done
      ∧ ((System.boot sampleConfig twoDevices).run
        [.ctorStep, .ctorStep, .ctorStep, .sessionFailed 1 (Exn.egl 3)]).aborted = true
      ∧ ((System.boot sampleConfig twoDevices).run
        [.ctorStep, .ctorStep, .ctorStep, .sessionFailed 1 (Exn.egl 3)]).pool.threads.map
          (fun t => (t.phase, t.joinable)) = [(Phase.boot, true), (Phase.boot, true)]
      ∧ ((System.boot sampleConfig twoDevices).run
        [.ctorStep, .ctorStep, .ctorStep, .sessionFailed 1 (Exn.egl 3)]).stop = Stop.idle
      ∧ ((System.boot sampleConfig twoDevices).run
        [.ctorStep, .sessionFailed 0 (Exn.egl 3), .ctorStep, .threadCreationFails,
          .stopJoin, .ctorStep]).ctor = Ctor.spawning sampleConfig 1 [{ handle := some 8 }]
      ∧ ((System.boot sampleConfig twoDevices).run
        [.ctorStep, .sessionFailed 0 (Exn.egl 3), .ctorStep, .threadCreationFails,
          .stopJoin, .ctorStep]).aborted = true
      ∧ ((System.boot sampleConfig twoDevices).run
        [.ctorStep, .ctorStep, .sessionReady 0, .advance 0, .ctorStep]).ctor = Ctor.done
      ∧ ((System.boot sampleConfig twoDevices).run
        [.ctorStep, .ctorStep, .sessionReady 0, .advance 0, .ctorStep]).pool.threads.map
          (fun t => t.phase) = [Phase.exited, Phase.boot] := by
  decide

end VtsOffscreen
